import Mathlib

/-
  Verification of the order-pipeline service (src/flow_service.py, src/cli.py).

  The embedding models the JSON values the service manipulates, the Python
  dict/truthiness semantics the code relies on, the order store, the four
  LangGraph stage functions, and the bundle merge/dedup loop inside
  execute_action.  External collaborators (the Cryptor redaction service,
  the language model, and the standard-library JSON parser) are passed in
  as oracle parameters, exactly as the spec treats them (interfaces only).
-/

/-- A JSON value, as produced by `json.loads` / the remote services.
JSON numbers are modelled as integers (no claim involves fractional
values); objects are insertion-ordered association lists, matching the
insertion-ordered Python `dict` produced by `json.loads`. -/
inductive Json where
  | null : Json
  | bool (b : Bool) : Json
  | num (n : Int) : Json
  | str (s : String) : Json
  | arr (elems : List Json) : Json
  | obj (fields : List (String × Json)) : Json

mutual

def Json.beq : Json → Json → Bool
  | .null, .null => true
  | .bool a, .bool b => a == b
  | .num a, .num b => a == b
  | .str a, .str b => a == b
  | .arr xs, .arr ys => Json.beqList xs ys
  | .obj xs, .obj ys => Json.beqFields xs ys
  | _, _ => false

def Json.beqList : List Json → List Json → Bool
  | [], [] => true
  | x :: xs, y :: ys => Json.beq x y && Json.beqList xs ys
  | _, _ => false

def Json.beqFields : List (String × Json) → List (String × Json) → Bool
  | [], [] => true
  | (k1, v1) :: xs, (k2, v2) :: ys => k1 == k2 && Json.beq v1 v2 && Json.beqFields xs ys
  | _, _ => false

end

mutual

theorem Json.beq_iff : ∀ (a b : Json), Json.beq a b = true ↔ a = b
  | .null, b => by cases b <;> simp [Json.beq]
  | .bool a, b => by cases b <;> simp [Json.beq]
  | .num a, b => by cases b <;> simp [Json.beq]
  | .str a, b => by cases b <;> simp [Json.beq]
  | .arr xs, b => by
      cases b <;> simp [Json.beq]
      exact Json.beqList_iff xs _
  | .obj xs, b => by
      cases b <;> simp [Json.beq]
      exact Json.beqFields_iff xs _

theorem Json.beqList_iff : ∀ (xs ys : List Json), Json.beqList xs ys = true ↔ xs = ys
  | [], ys => by cases ys <;> simp [Json.beqList]
  | x :: xs, ys => by
      cases ys with
      | nil => simp [Json.beqList]
      | cons y ys =>
          simp [Json.beqList, Json.beq_iff x y, Json.beqList_iff xs ys]

theorem Json.beqFields_iff : ∀ (xs ys : List (String × Json)), Json.beqFields xs ys = true ↔ xs = ys
  | [], ys => by cases ys <;> simp [Json.beqFields]
  | (k, v) :: xs, ys => by
      cases ys with
      | nil => simp [Json.beqFields]
      | cons p ys =>
          cases p with
          | mk k2 v2 =>
              simp [Json.beqFields, Json.beq_iff v v2, Json.beqFields_iff xs ys]

end

instance : DecidableEq Json := fun a b => decidable_of_iff _ (Json.beq_iff a b)

instance : BEq Json := ⟨Json.beq⟩

instance : LawfulBEq Json where
  eq_of_beq h := (Json.beq_iff _ _).1 h
  rfl := (Json.beq_iff _ _).2 rfl

instance {ε α : Type} [DecidableEq ε] [DecidableEq α] : DecidableEq (Except ε α) := fun a b =>
  match a, b with
  | .ok x, .ok y =>
      if h : x = y then .isTrue (by rw [h])
      else .isFalse (by intro hc; exact h (Except.ok.inj hc))
  | .error x, .error y =>
      if h : x = y then .isTrue (by rw [h])
      else .isFalse (by intro hc; exact h (Except.error.inj hc))
  | .ok _, .error _ => .isFalse (by intro hc; exact Except.noConfusion hc)
  | .error _, .ok _ => .isFalse (by intro hc; exact Except.noConfusion hc)

/-- Python truthiness of a JSON value (`if not x` in the source code):
`None`, `False`, `0`, the empty string, the empty list and the empty dict
are falsy, everything else is truthy. -/
def Json.falsy : Json → Bool
  | .null => true
  | .bool b => !b
  | .num n => n == 0
  | .str s => s == ""
  | .arr xs => xs.isEmpty
  | .obj fs => fs.isEmpty

/-- Whether the value can be used as a Python dict key (lists and dicts are
unhashable; assigning them as keys raises `TypeError`). -/
def Json.hashable : Json → Bool
  | .arr _ => false
  | .obj _ => false
  | _ => true

/-- The message of the `TypeError` raised when an unhashable value is used
as a dict key. -/
def unhashableMsg : Json → String
  | .arr _ => "unhashable type: \x27list\x27"
  | .obj _ => "unhashable type: \x27dict\x27"
  | _ => "unhashable type"

/-- Normalisation underlying Python dict key equality: `True == 1` and
`False == 0`, so booleans collapse onto the corresponding number.  Only the
values of the merge dict are ever output, so keys can be kept normalised. -/
def Json.keyNorm : Json → Json
  | .bool b => .num (if b then 1 else 0)
  | j => j

/-- Lookup of a field in a JSON object (`d["k"]` / `d.get("k")` /
`"k" in d`).  Objects produced by `json.loads` have unique keys, so the
first match is the match. -/
def getField : List (String × Json) → String → Option Json
  | [], _ => none
  | (k2, v) :: fs, k => if k2 = k then some v else getField fs k

/-- Function `bundle_key` (src/flow_service.py lines 329-335): identity key of a
bundle in the merge/dedup step.  A non-dict bundle has no key; a dict
exposes `placeholder` when that field is present (live bundles from the
redaction service), else `id` (stored bundles); `.get("id")` yields `None`
when `id` is absent. -/
def bundle_key : Json → Option Json
  | .obj fields =>
      match getField fields "placeholder" with
      | some v => some v
      | none => getField fields "id"
  | _ => none

/-- The effective dedup key of a bundle: `bundle_key` followed by the
`if not key: continue` guard of the merge loop (falsy keys are skipped),
normalised for Python dict key equality. -/
def effKey (b : Json) : Option Json :=
  match bundle_key b with
  | none => none
  | some k => if k.falsy then none else some k.keyNorm

/-- Python dict assignment `d[k] = v` on an insertion-ordered dict:
an existing entry with the same key keeps its position and gets the new
value, a new key is appended. -/
def dictSet (d : List (Json × Json)) (k v : Json) : List (Json × Json) :=
  if d.any (fun p => p.1 == k) then d.map (fun p => if p.1 == k then (p.1, v) else p)
  else d ++ [(k, v)]

/-- The `for bundle in combined_bundles` dedup loop of `execute_action`
(src/flow_service.py lines 337-342), building `unique_bundles_dict`.
Assigning an unhashable key raises `TypeError` (propagated by the stage
handler as a business-logic failure). -/
def mergeLoop : List (Json × Json) → List Json → Except String (List (Json × Json))
  | d, [] => .ok d
  | d, b :: bs =>
      match effKey b with
      | none => mergeLoop d bs
      | some k =>
          if k.hashable then mergeLoop (dictSet d k b) bs
          else .error (unhashableMsg k)

/-- The bundle merge/dedup step of `execute_action` (src/flow_service.py
lines 326-344): concatenate the pipeline bundles with the newly contributed
ones, dedup by identity key, and return the dict values in insertion
order. -/
def mergeBundles (stateBundles newBundles : List Json) : Except String (List Json) :=
  (mergeLoop [] (stateBundles ++ newBundles)).map (fun d => d.map (fun p => p.2))

/-- Modelled from the spec (§4.5): the identity keys surviving the merge, in
first-insertion order — the first occurrence of each key in traversal
order, keys already seen (`seen`) being skipped. -/
def specKeys (seen : List Json) : List Json → List Json
  | [] => []
  | b :: bs =>
      match effKey b with
      | none => specKeys seen bs
      | some k => if k ∈ seen then specKeys seen bs else k :: specKeys (k :: seen) bs

/-- Modelled from the spec (§4.5): later entries overwrite earlier entries
sharing a key, so the surviving bundle for a key is the last bundle of the
traversal carrying that key (`dflt` when there is none). -/
def lastVal (l : List Json) (k : Json) (dflt : Json) : Json :=
  ((l.filter (fun b => effKey b == some k)).getLast?).getD dflt

/-- Modelled from the spec (§4.5): the merge output described declaratively —
for each surviving key, in first-insertion order, the last bundle of the
concatenated traversal carrying that key. -/
def specMerge (l : List Json) : List Json :=
  (specKeys [] l).map (fun k => lastVal l k Json.null)

/-- All effective dedup keys of the collection are hashable, i.e. the merge
loop completes without raising. -/
def noUnhashableKeys (l : List Json) : Bool :=
  l.all (fun b =>
    match effKey b with
    | some k => k.hashable
    | none => true)


mutual

def Json.dumps : Json → String
  | .null => "null"
  | .bool b => if b then "true" else "false"
  | .num n => toString n
  | .str s => "\"" ++ s ++ "\""
  | .arr xs => "[" ++ Json.dumpsList xs ++ "]"
  | .obj fs => "\x7b" ++ Json.dumpsFields fs ++ "\x7d"

def Json.dumpsList : List Json → String
  | [] => ""
  | [x] => Json.dumps x
  | x :: xs => Json.dumps x ++ ", " ++ Json.dumpsList xs

def Json.dumpsFields : List (String × Json) → String
  | [] => ""
  | [(k, v)] => "\"" ++ k ++ "\": " ++ Json.dumps v
  | (k, v) :: fs => "\"" ++ k ++ "\": " ++ Json.dumps v ++ ", " ++ Json.dumpsFields fs

end

/-- Python `str()` of a JSON value, used only to build log/error message
text (string escaping inside containers is approximated by the JSON
serialisation; no theorem depends on container rendering). -/
def pyStr : Json → String
  | .null => "None"
  | .bool b => if b then "True" else "False"
  | .num n => toString n
  | .str s => s
  | j => Json.dumps j

/-- The process-wide mutable storage of flow_service.py: `ORDERS_DB`
(order id to order record), `BUNDLES_STORAGE` (order id to bundle list)
and `ORDER_COUNTER`, threaded explicitly through the embedding.  Both maps
are insertion-ordered dicts with string keys. -/
structure Store where
  orders : List (String × List (String × Json))
  bundlesStorage : List (String × List Json)
  counter : Nat
deriving DecidableEq

/-- Lookup in a string-keyed Python dict (`d.get(k)`). -/
def dictGet {α : Type} : List (String × α) → String → Option α
  | [], _ => none
  | (k2, v) :: d, k => if k2 = k then some v else dictGet d k

/-- Python dict assignment `d[k] = v` for a string-keyed dict, and also the
`{**order, "k": v}` dict-literal merge: an existing key keeps its position
and gets the new value, a new key is appended. -/
def dictSetStr {α : Type} (d : List (String × α)) (k : String) (v : α) : List (String × α) :=
  if d.any (fun p => p.1 == k) then d.map (fun p => if p.1 == k then (p.1, v) else p)
  else d ++ [(k, v)]

/-- Function `get_bundles` (lines 109-113): bundles stored for an order id, `[]`
when absent. -/
def get_bundles (store : Store) (order_id : String) : List Json :=
  (dictGet store.bundlesStorage order_id).getD []

/-- Function `get_order` (lines 118-126): encrypted order by id.  `if not order`
treats both an absent id and an empty record as not found. -/
def get_order (store : Store) (order_id : String) : List (String × Json) :=
  match dictGet store.orders order_id with
  | none => [("error", Json.str "Order not found")]
  | some order =>
      if order.isEmpty then [("error", Json.str "Order not found")]
      else dictSetStr order "order_id" (Json.str order_id)

/-- Function `get_order_decrypted` (lines 129-166).  The decrypt round trip —
`requests.post` on `/v1/decrypt`, `raise_for_status`, response JSON
decoding and `json.loads` of the decrypted text — is one oracle taking the
order record (serialised with `json.dumps` at the call boundary) and the
bundles; its `.error` covers every failure mode of that block (transport
error, non-2xx status, undecodable response, non-dict decrypted text),
all caught by the single `except` of the source. -/
def get_order_decrypted
    (decryptOrder : List (String × Json) → List Json → Except String (List (String × Json)))
    (store : Store) (order_id : String) : List (String × Json) :=
  match dictGet store.orders order_id with
  | none => [("error", Json.str "Order not found")]
  | some order =>
      if order.isEmpty then [("error", Json.str "Order not found")]
      else
        let bundles := get_bundles store order_id
        if bundles.isEmpty then
          dictSetStr (dictSetStr order "order_id" (Json.str order_id))
            "note" (Json.str "Bundles not found for decryption")
        else
          match decryptOrder order bundles with
          | .ok decrypted_order => dictSetStr decrypted_order "order_id" (Json.str order_id)
          | .error e =>
              dictSetStr (dictSetStr order "order_id" (Json.str order_id))
                "decrypt_error" (Json.str ("Cryptor service error: " ++ e))

/-- Function `get_all_orders` (lines 169-174): every encrypted order annotated with
its id, plus the total count. -/
def get_all_orders (store : Store) : List (String × Json) :=
  let orders_list := store.orders.map (fun p => Json.obj (dictSetStr p.2 "order_id" (Json.str p.1)))
  [("orders", Json.arr orders_list), ("total", Json.num orders_list.length)]


/-- The decimal digit character for `d < 10`. -/
def digitChar (d : Nat) : Char := Char.ofNat (48 + d)

/-- Python `str(n)` for a natural number: decimal digits, most significant
first, no leading zeros, `"0"` for zero. -/
def reprChars (n : Nat) : List Char :=
  if n = 0 then [Char.ofNat 48] else (Nat.digits 10 n).reverse.map digitChar

/-- Python `f"{n:03d}"`: the decimal form left-padded with zeros to three
characters (wider numbers are not truncated). -/
def pad3Chars (n : Nat) : List Char :=
  List.replicate (3 - (reprChars n).length) (Char.ofNat 48) ++ reprChars n

/-- The generated order identifier `f"ORD-{ORDER_COUNTER:03d}"`
(line 183). -/
def orderIdOf (n : Nat) : String := "ORD-" ++ String.mk (pad3Chars n)

/-- Function `create_order` (lines 177-202): allocate the next identifier, bump the
counter, store the order record (status `processing`, `created_at` from the
wall clock passed in as `now`), persist the given bundles under the new id,
and return the acknowledgment.  The synchronous file writes of
`save_db`/`save_bundles` are the store update itself (durable storage is
out of scope per spec §1). -/
def create_order (store : Store) (now : String)
    (customer email phone address items : Json) (bundles : List Json) :
    Store × List (String × Json) :=
  let order_id := orderIdOf store.counter
  let order : List (String × Json) :=
    [("customer", customer), ("email", email), ("phone", phone), ("address", address),
     ("items", items), ("status", Json.str "processing"), ("created_at", Json.str now)]
  let store2 : Store :=
    { orders := dictSetStr store.orders order_id order,
      bundlesStorage := dictSetStr store.bundlesStorage order_id bundles,
      counter := store.counter + 1 }
  (store2, [("order_id", Json.str order_id), ("status", Json.str "created")])

/-- One create-order request: the four placeholder-encoded PII fields, the
items text, the pipeline bundles persisted with the order, and the wall
clock reading. -/
structure CreateReq where
  customer : Json
  email : Json
  phone : Json
  address : Json
  items : Json
  bundles : List Json
  now : String
deriving DecidableEq

/-- A sequence of successful `create_order` calls within one process
lifetime, threading the process-wide store; returns the final store and
the acknowledgment of each call in order. -/
def runCreates (store : Store) : List CreateReq → Store × List (List (String × Json))
  | [] => (store, [])
  | r :: rs =>
      let sr := create_order store r.now r.customer r.email r.phone r.address r.items r.bundles
      let rest := runCreates sr.1 rs
      (rest.1, sr.2 :: rest.2)


/-- The LangGraph state schema `ServiceState` (lines 48-57).  In the source
`action` and `tool_result` hold `json.dumps` serialisations that the next
stage immediately re-parses; the embedding carries the parsed JSON value
(the round trip is the identity on the values involved). -/
structure ServiceState where
  user_input : String
  encrypted_input : Option String
  bundles : List Json
  tenant_id : String
  action : Option Json
  tool_result : Option Json
  agent_response : Option String
  final_response : Option String
deriving DecidableEq

/-- The two kinds of failure observable at the caller boundary (src/cli.py
lines 162-166): `runtime` is the recoverable pipeline error kind
(`RuntimeError`, printed as a processing error), `other` is any other
exception (printed as an unexpected system error). -/
inductive PyErr where
  | runtime (msg : String)
  | other (msg : String)
deriving DecidableEq

/-- Response of the Cryptor detect-encrypt call (`resp.json()` fields used
by `process_input`). -/
structure EncryptResponse where
  text_with_placeholders : String
  bundles : List Json
  tenant_id : String
deriving DecidableEq

/-- Payload of the final-reply decrypt call built by `format_response`
(lines 384-388). -/
structure DecryptPayload where
  tenant_id : String
  text_with_placeholders : String
  bundles : List Json
deriving DecidableEq

/-- Rendering of an optional string into an f-string (`None` when the
state field is unset). -/
def pyStrOptStr : Option String → String
  | none => "None"
  | some s => s

/-- The action-selection prompt of `determine_action` (lines 247-258). -/
def actionPrompt (encrypted_input : Option String) : String :=
  "You are the backend action selector. Analyze the customer\x27s request below (PII already replaced with placeholders) and decide which operation to run.\nRequest: "
  ++ pyStrOptStr encrypted_input ++
  "\n\nRules for create_order:\n- Fields \x27customer\x27, \x27email\x27, \x27phone\x27, \x27address\x27 MUST contain the placeholders exactly as provided.\n- Field \x27items\x27 must include the full text description of the products from the request. Always wrap the value of \x27items\x27 in double quotes.\n\nReturn ONLY a JSON object shaped as one of the following:\n- Lookup by ID: \x7b\"action\": \"get_order\", \"order_id\": \"ORD-XXX\"\x7d\n- List orders: \x7b\"action\": \"get_all_orders\"\x7d\n- Create order: \x7b\"action\": \"create_order\", \"customer\": \"[PERSON_X]\", \"email\": \"[EMAIL_X]\", \"phone\": \"[PHONE_X]\", \"address\": \"[LOCATION_X]\", \"items\": \"text description\"\x7d\n"

/-- The reply-drafting prompt of `format_response` (lines 369-373); the
operation result appears as its `json.dumps` serialisation. -/
def responsePrompt (encrypted_input : Option String) (tool_result : Option Json) : String :=
  "You are a friendly customer support agent for a flower shop. Write a concise response using the tool output below.\nAlways keep PII placeholders (like [PERSON_X], [EMAIL_X]) exactly as provided.\n\nCustomer request: "
  ++ pyStrOptStr encrypted_input ++ "\nOperation result: "
  ++ (match tool_result with
      | none => "None"
      | some j => Json.dumps j)

/-- Python `text.strip()`: leading and trailing whitespace removed. -/
def pyStrip (s : String) : String :=
  String.mk (((s.data.dropWhile Char.isWhitespace).reverse.dropWhile
    Char.isWhitespace).reverse)

/-- Python `text.find(c)`: index of the first occurrence, `-1` when
absent. -/
def pyFind (s : String) (c : Char) : Int :=
  match s.data.findIdx? (fun c2 => c2 == c) with
  | some i => (i : Int)
  | none => -1

/-- Python `text.rfind(c)`: index of the last occurrence, `-1` when
absent. -/
def pyRFind (s : String) (c : Char) : Int :=
  match s.data.reverse.findIdx? (fun c2 => c2 == c) with
  | some i => ((s.data.length - 1 - i : Nat) : Int)
  | none => -1

/-- Python slicing `s[i:j]` with negative-index wrap-around. -/
def pySlice (s : String) (i j : Int) : String :=
  let n : Int := s.data.length
  let norm : Int → Nat := fun k => (if k < 0 then max 0 (n + k) else min k n).toNat
  String.mk ((s.data.drop (norm i)).take (norm j - norm i))

/-- Step 1, `process_input` (lines 208-239): redact the raw input through
the Cryptor detect-encrypt oracle (tenant id, threshold 0.35 and schema tag
are fixed constants of the request payload); any failure of the call is
raised as the pipeline error kind. -/
def process_input (encrypt : String → Except String EncryptResponse)
    (state : ServiceState) : Except PyErr ServiceState :=
  match encrypt state.user_input with
  | .error e => .error (.runtime ("Cryptor detect-encrypt failure: " ++ e))
  | .ok d =>
      .ok { state with
              encrypted_input := some d.text_with_placeholders,
              bundles := d.bundles,
              tenant_id := d.tenant_id }

/-- Step 2, `determine_action` (lines 242-279): draft the action selection
through the language-model oracle, extract the span from the first `{` to
the last `}` of the stripped output, parse it with the `json.loads` oracle,
and store the parsed object.  A parse failure, a non-dict parse result (the
`action_data["action"]` log access raises `TypeError`) or a missing
`action` entry (`KeyError`) is caught and re-raised as the pipeline error
kind; the embedded message stands for the Python exception text. -/
def determine_action (llm : String → Except String String)
    (loads : String → Option Json) (state : ServiceState) : Except PyErr ServiceState :=
  match llm (actionPrompt state.encrypted_input) with
  | .error e => .error (.runtime ("Language model action failure: " ++ e))
  | .ok raw =>
      let response_text := pyStrip raw
      let start := pyFind response_text (Char.ofNat 123)
      let stop := pyRFind response_text (Char.ofNat 125) + 1
      match loads (pySlice response_text start stop) with
      | none => .error (.runtime "Language model action failure: invalid JSON")
      | some action_data =>
          match action_data with
          | .obj fields =>
              match getField fields "action" with
              | some _ => .ok { state with action := some action_data }
              | none => .error (.runtime "Language model action failure: KeyError action")
          | _ => .error (.runtime "Language model action failure: TypeError on action_data subscript")


/-- The action dispatch of `execute_action` (lines 294-324): one business
action, returning the updated store, the `result` payload and the
`new_bundles` contributed for the downstream decrypt.  A `get_order` id
is read with `action_data.get("order_id", "")`; a non-string id matches
nothing in the string-keyed store (an unhashable id raises `TypeError`
inside the stage handler).  In the `get_all_orders` branch bundles are
collected for each returned order whose `order_id` annotation is truthy. -/
def dispatchAction (now : String) (store : Store) (state : ServiceState)
    (fields : List (String × Json)) (action_type : Json) :
    Except PyErr (Store × (List (String × Json)) × List Json) :=
  if action_type = Json.str "get_order" then
    match (getField fields "order_id").getD (Json.str "") with
    | .str order_id => .ok (store, get_order store order_id, get_bundles store order_id)
    | .arr xs => .error (.runtime ("Business logic failure: " ++ unhashableMsg (.arr xs)))
    | .obj fs => .error (.runtime ("Business logic failure: " ++ unhashableMsg (.obj fs)))
    | _ => .ok (store, [("error", Json.str "Order not found")], [])
  else if action_type = Json.str "get_all_orders" then
    let result := get_all_orders store
    let order_list : List Json :=
      match getField result "orders" with
      | some (Json.arr xs) => xs
      | _ => []
    let new_bundles := order_list.foldl (fun acc order =>
      match order with
      | .obj ofs =>
          match (getField ofs "order_id").getD Json.null with
          | .str oid => if oid == "" then acc else acc ++ get_bundles store oid
          | v => if v.falsy then acc else acc
      | _ => acc) []
    .ok (store, result, new_bundles)
  else if action_type = Json.str "create_order" then
    let sr := create_order store now
      ((getField fields "customer").getD (Json.str ""))
      ((getField fields "email").getD (Json.str ""))
      ((getField fields "phone").getD (Json.str ""))
      ((getField fields "address").getD (Json.str ""))
      ((getField fields "items").getD (Json.str ""))
      state.bundles
    .ok (sr.1, sr.2, [])
  else
    .ok (store, [("error", Json.str ("Unknown action: " ++ pyStr action_type))], [])

/-- Step 3, `execute_action` (lines 282-362): re-read the classified action
(`json.loads` of the serialised state field is outside the stage handler:
an unset action raises an uncaught `TypeError`, and a non-dict one an
uncaught `AttributeError` at `action_data.get`), dispatch the business
action, then run the bundle merge/dedup and store the serialised result
and the merged bundles.  Failures inside the stage are re-raised as the
pipeline error kind (`Business logic failure`). -/
def execute_action (now : String) (store : Store) (state : ServiceState) :
    Except PyErr (Store × ServiceState) :=
  match state.action with
  | none => .error (.other "the JSON object must be str, bytes or bytearray, not NoneType")
  | some actionData =>
      match actionData with
      | .obj fields =>
          let action_type := (getField fields "action").getD Json.null
          match dispatchAction now store state fields action_type with
          | .error e => .error e
          | .ok sr =>
              match mergeBundles state.bundles sr.2.2 with
              | .error e => .error (.runtime ("Business logic failure: " ++ e))
              | .ok final_bundles =>
                  .ok (sr.1, { state with
                                 tool_result := some (Json.obj sr.2.1),
                                 bundles := final_bundles })
      | other => .error (.other ("AttributeError: " ++ pyStr other ++ " has no attribute get"))

/-- Step 4, `format_response` (lines 365-411): draft the reply through the
language-model oracle, then decrypt it through the Cryptor decrypt oracle
with the state tenant id and merged bundles.  A decrypt failure raises
`Final response decrypt failed`, which the outer handler of the stage
re-wraps into `Response generation failed`; either way the stage fails
with the pipeline error kind and returns no state. -/
def format_response (llm : String → Except String String)
    (decrypt : DecryptPayload → Except String String)
    (state : ServiceState) : Except PyErr ServiceState :=
  match llm (responsePrompt state.encrypted_input state.tool_result) with
  | .error e => .error (.runtime ("Response generation failed: " ++ e))
  | .ok agent_response =>
      match decrypt ⟨state.tenant_id, agent_response, state.bundles⟩ with
      | .ok final_response =>
          .ok { state with
                  agent_response := some agent_response,
                  final_response := some final_response }
      | .error de =>
          .error (.runtime ("Response generation failed: Final response decrypt failed: " ++ de))

/-- The initial pipeline state of `app.invoke({"user_input": ...})`
(src/cli.py line 145): every other field unset. -/
def initState (user_input : String) : ServiceState :=
  ⟨user_input, none, [], "", none, none, none, none⟩

/-- The compiled LangGraph workflow (lines 416-430): the fixed linear
pipeline `process_input → determine_action → execute_action →
format_response`, threading the pipeline state and the process-wide store;
the first stage failure aborts the run. -/
def runPipeline (encrypt : String → Except String EncryptResponse)
    (llmAction : String → Except String String) (loads : String → Option Json)
    (llmReply : String → Except String String) (decrypt : DecryptPayload → Except String String)
    (now : String) (store : Store) (user_input : String) :
    Except PyErr (Store × ServiceState) :=
  match process_input encrypt (initState user_input) with
  | .error e => .error e
  | .ok st1 =>
      match determine_action llmAction loads st1 with
      | .error e => .error e
      | .ok st2 =>
          match execute_action now store st2 with
          | .error e => .error e
          | .ok pair =>
              match format_response llmReply decrypt pair.2 with
              | .error e => .error e
              | .ok st4 => .ok (pair.1, st4)


/-- The message of the first `TypeError` the merge loop would raise on the
collection, if any: the loop stops at the first unhashable key. -/
def firstBadMsg : List Json → Option String
  | [] => none
  | b :: bs =>
      match effKey b with
      | none => firstBadMsg bs
      | some k => if k.hashable then firstBadMsg bs else some (unhashableMsg k)

theorem getLast?_getD_cons {α : Type} (a d : α) (xs : List α) :
    ((a :: xs).getLast?).getD d = (xs.getLast?).getD a := by
  induction xs with
  | nil => rfl
  | cons y ys ih =>
      rw [List.getLast?_cons_cons]
      rcases h : (y :: ys).getLast? with _ | z
      · exact absurd h (by simp)
      · rfl

theorem lastVal_nil (k dflt : Json) : lastVal [] k dflt = dflt := rfl

theorem lastVal_cons_ne {b k : Json} (h : ¬ effKey b = some k) (l : List Json) (dflt : Json) :
    lastVal (b :: l) k dflt = lastVal l k dflt := by
  have hb : (effKey b == some k) = false := by simpa using h
  simp [lastVal, List.filter_cons, hb]

theorem lastVal_cons_eq {b k : Json} (h : effKey b = some k) (l : List Json) (dflt : Json) :
    lastVal (b :: l) k dflt = lastVal l k b := by
  have hb : (effKey b == some k) = true := by simpa using h
  simp only [lastVal, List.filter_cons, hb, if_true]
  exact getLast?_getD_cons _ _ _

theorem lastVal_self_append (l : List Json) (k dflt : Json) :
    lastVal (l ++ l) k dflt = lastVal l k dflt := by
  simp only [lastVal, List.filter_append, List.getLast?_append]
  rcases h : (List.filter (fun b => effKey b == some k) l).getLast? with _ | x <;> simp [h]

theorem specKeys_not_mem_seen {k : Json} :
    ∀ (l : List Json) (seen : List Json), k ∈ specKeys seen l → k ∉ seen := by
  intro l
  induction l with
  | nil => intro seen h; simp [specKeys] at h
  | cons b bs ih =>
      intro seen h
      rcases hk : effKey b with _ | k2 <;> simp only [specKeys, hk] at h
      · exact ih seen h
      · by_cases hmem : k2 ∈ seen
        · rw [if_pos hmem] at h; exact ih seen h
        · rw [if_neg hmem] at h
          rcases List.mem_cons.mp h with hEq | hTail
          · subst hEq; exact hmem
          · intro hk2; exact ih (k2 :: seen) hTail (List.mem_cons_of_mem _ hk2)

theorem specKeys_congr :
    ∀ (l : List Json) (s1 s2 : List Json), (∀ x, x ∈ s1 ↔ x ∈ s2) →
      specKeys s1 l = specKeys s2 l := by
  intro l
  induction l with
  | nil => intro s1 s2 _; rfl
  | cons b bs ih =>
      intro s1 s2 hs
      rcases hk : effKey b with _ | k2 <;> simp only [specKeys, hk]
      · exact ih s1 s2 hs
      · by_cases hmem : k2 ∈ s1
        · rw [if_pos hmem, if_pos ((hs k2).mp hmem)]
          exact ih s1 s2 hs
        · rw [if_neg hmem, if_neg (fun h => hmem ((hs k2).mpr h))]
          refine congrArg (k2 :: ·) (ih _ _ ?_)
          intro x
          simp only [List.mem_cons]
          exact or_congr Iff.rfl (hs x)

theorem mem_of_mem_specKeys {k : Json} :
    ∀ (l : List Json) (seen : List Json), k ∈ specKeys seen l →
      ∃ b ∈ l, effKey b = some k := by
  intro l
  induction l with
  | nil => intro seen h; simp [specKeys] at h
  | cons b bs ih =>
      intro seen h
      rcases hk : effKey b with _ | k2 <;> simp only [specKeys, hk] at h
      · obtain ⟨b2, hb2, he⟩ := ih seen h
        exact ⟨b2, List.mem_cons_of_mem _ hb2, he⟩
      · by_cases hmem : k2 ∈ seen
        · rw [if_pos hmem] at h
          obtain ⟨b2, hb2, he⟩ := ih seen h
          exact ⟨b2, List.mem_cons_of_mem _ hb2, he⟩
        · rw [if_neg hmem] at h
          rcases List.mem_cons.mp h with hEq | hTail
          · exact ⟨b, List.mem_cons_self _ _, by rw [hk, hEq]⟩
          · obtain ⟨b2, hb2, he⟩ := ih (k2 :: seen) hTail
            exact ⟨b2, List.mem_cons_of_mem _ hb2, he⟩

theorem specKeys_covered :
    ∀ (l : List Json) (seen : List Json),
      (∀ b ∈ l, ∀ k, effKey b = some k → k ∈ seen) → specKeys seen l = [] := by
  intro l
  induction l with
  | nil => intro seen _; rfl
  | cons b bs ih =>
      intro seen hcov
      rcases hk : effKey b with _ | k2 <;> simp only [specKeys, hk]
      · exact ih seen (fun b2 hb2 => hcov b2 (List.mem_cons_of_mem _ hb2))
      · rw [if_pos (hcov b (List.mem_cons_self _ _) k2 hk)]
        exact ih seen (fun b2 hb2 => hcov b2 (List.mem_cons_of_mem _ hb2))

theorem specKeys_append :
    ∀ (l1 : List Json) (seen l2 : List Json),
      specKeys seen (l1 ++ l2) =
        specKeys seen l1 ++ specKeys (specKeys seen l1 ++ seen) l2 := by
  intro l1
  induction l1 with
  | nil => intro seen l2; rfl
  | cons b bs ih =>
      intro seen l2
      simp only [List.cons_append]
      rcases hk : effKey b with _ | k2 <;> simp only [specKeys, hk]
      · exact ih seen l2
      · by_cases hmem : k2 ∈ seen
        · rw [if_pos hmem, if_pos hmem]
          exact ih seen l2
        · rw [if_neg hmem, if_neg hmem]
          rw [ih (k2 :: seen) l2]
          simp only [List.cons_append, List.append_assoc]
          refine congrArg (k2 :: ·) (congrArg _ ?_)
          refine specKeys_congr _ _ _ ?_
          intro x
          simp only [List.mem_append, List.mem_cons]
          tauto


/-- The merge dict after processing `l` from dict `d`, described
declaratively: existing entries keep their position and end with the last
matching bundle of the traversal, new keys are appended in first-occurrence
order, each carrying the last bundle of the traversal with that key. -/
def updateOld (d : List (Json × Json)) (l : List Json) : List (Json × Json) :=
  d.map (fun p => (p.1, lastVal l p.1 p.2))

/-- New entries appended by the loop: keys of `l` not already in the dict,
in first-occurrence order, with their last value. -/
def newEntries (d : List (Json × Json)) (l : List Json) : List (Json × Json) :=
  (specKeys (d.map (fun p => p.1)) l).map (fun k => (k, lastVal l k Json.null))

theorem mergeLoop_ok :
    ∀ (l : List Json) (d : List (Json × Json)), noUnhashableKeys l = true →
      mergeLoop d l = .ok (updateOld d l ++ newEntries d l) := by
  intro l
  induction l with
  | nil =>
      intro d _
      simp [mergeLoop, updateOld, newEntries, specKeys, lastVal_nil]
  | cons b bs ih =>
      intro d hUn
      have hUnBs : noUnhashableKeys bs = true := by
        simp only [noUnhashableKeys, List.all_cons, Bool.and_eq_true] at hUn
        exact hUn.2
      rcases hk : effKey b with _ | k
      · have hml : mergeLoop d (b :: bs) = mergeLoop d bs := by simp [mergeLoop, hk]
        rw [hml, ih d hUnBs]
        have h1 : updateOld d (b :: bs) = updateOld d bs := by
          unfold updateOld
          refine List.map_congr_left (fun p _ => ?_)
          rw [lastVal_cons_ne (by simp [hk]) bs p.2]
        have h2 : newEntries d (b :: bs) = newEntries d bs := by
          unfold newEntries
          simp only [specKeys, hk]
          refine List.map_congr_left (fun k2 _ => ?_)
          rw [lastVal_cons_ne (by simp [hk]) bs Json.null]
        rw [h1, h2]
      · have hh : k.hashable = true := by
          simp only [noUnhashableKeys, List.all_cons, Bool.and_eq_true, hk] at hUn
          exact hUn.1
        have hml : mergeLoop d (b :: bs) = mergeLoop (dictSet d k b) bs := by
          simp [mergeLoop, hk, hh]
        rw [hml, ih _ hUnBs]
        by_cases hAny : d.any (fun p => p.1 == k) = true
        · -- the key is already present: the entry is overwritten in place
          have hset : dictSet d k b = d.map (fun p => if p.1 == k then (p.1, b) else p) := by
            simp only [dictSet, hAny, if_true]
          have hkeys : (dictSet d k b).map (fun p => p.1) = d.map (fun p => p.1) := by
            rw [hset, List.map_map]
            refine List.map_congr_left (fun p _ => ?_)
            simp only [Function.comp_apply]
            by_cases hpk : p.1 = k <;> simp [hpk]
          have hmem : k ∈ d.map (fun p => p.1) := by
            obtain ⟨p, hp, hbeq⟩ := List.any_eq_true.mp hAny
            exact List.mem_map.mpr ⟨p, hp, eq_of_beq hbeq⟩
          have h1 : updateOld (dictSet d k b) bs = updateOld d (b :: bs) := by
            unfold updateOld
            rw [hset, List.map_map]
            refine List.map_congr_left (fun p _ => ?_)
            simp only [Function.comp_apply]
            by_cases hpk : p.1 = k
            · simp only [hpk, beq_self_eq_true, if_true]
              rw [lastVal_cons_eq hk bs p.2]
            · have hb : (p.1 == k) = false := by simpa using hpk
              simp only [hb, Bool.false_eq_true, if_false]
              rw [lastVal_cons_ne (by rw [hk]; intro hkk; exact hpk (Option.some.inj hkk).symm) bs p.2]
          have h2 : newEntries (dictSet d k b) bs = newEntries d (b :: bs) := by
            unfold newEntries
            rw [hkeys]
            simp only [specKeys, hk, if_pos hmem]
            refine List.map_congr_left (fun k2 hk2 => ?_)
            have hne : k2 ≠ k := by
              intro hkk
              exact specKeys_not_mem_seen bs _ hk2 (hkk ▸ hmem)
            rw [lastVal_cons_ne (by rw [hk]; intro hkk; exact hne (Option.some.inj hkk).symm) bs Json.null]
          rw [h1, h2]
        · -- new key: the entry is appended
          have hAnyF : d.any (fun p => p.1 == k) = false := by
            exact Bool.not_eq_true _ ▸ (by simpa using hAny)
          have hset : dictSet d k b = d ++ [(k, b)] := by
            simp only [dictSet, hAnyF, Bool.false_eq_true, if_false]
          have hNotMem : k ∉ d.map (fun p => p.1) := by
            intro hmem
            obtain ⟨p, hp, hpk⟩ := List.mem_map.mp hmem
            have : d.any (fun p => p.1 == k) = true :=
              List.any_eq_true.mpr ⟨p, hp, by rw [hpk]; exact beq_self_eq_true k⟩
            exact hAny this
          have hPk : ∀ p, p ∈ d → p.1 ≠ k := by
            intro p hp hpk
            exact hNotMem (List.mem_map.mpr ⟨p, hp, hpk⟩)
          have h1 : updateOld (dictSet d k b) bs =
              updateOld d (b :: bs) ++ [(k, lastVal bs k b)] := by
            unfold updateOld
            rw [hset, List.map_append]
            simp only [List.map_cons, List.map_nil]
            congr 1
            refine List.map_congr_left (fun p hp => ?_)
            rw [lastVal_cons_ne (by rw [hk]; intro hkk; exact hPk p hp (Option.some.inj hkk).symm) bs p.2]
          have h2 : newEntries (dictSet d k b) bs =
              (specKeys (k :: d.map (fun p => p.1)) bs).map
                (fun k2 => (k2, lastVal (b :: bs) k2 Json.null)) := by
            unfold newEntries
            rw [hset, List.map_append]
            simp only [List.map_cons, List.map_nil]
            rw [specKeys_congr bs (d.map (fun p => p.1) ++ [k]) (k :: d.map (fun p => p.1))
              (by intro x; simp only [List.mem_append, List.mem_cons, List.mem_singleton]; tauto)]
            refine List.map_congr_left (fun k2 hk2 => ?_)
            have hne : k2 ≠ k := by
              intro hkk
              exact specKeys_not_mem_seen bs _ hk2 (hkk ▸ List.mem_cons_self k _)
            rw [lastVal_cons_ne (by rw [hk]; intro hkk; exact hne (Option.some.inj hkk).symm) bs Json.null]
          rw [h1, h2]
          have h3 : newEntries d (b :: bs) =
              (k, lastVal bs k b) ::
                (specKeys (k :: d.map (fun p => p.1)) bs).map
                  (fun k2 => (k2, lastVal (b :: bs) k2 Json.null)) := by
            unfold newEntries
            simp only [specKeys, hk, if_neg hNotMem, List.map_cons]
            rw [lastVal_cons_eq hk bs Json.null]
          rw [h3, List.append_assoc]
          simp


theorem mergeLoop_error (l : List Json) :
    ∀ (d : List (Json × Json)) (e : String), firstBadMsg l = some e →
      mergeLoop d l = .error e := by
  induction l with
  | nil => intro d e h; simp [firstBadMsg] at h
  | cons b bs ih =>
      intro d e h
      rcases hk : effKey b with _ | k <;> simp only [firstBadMsg, hk] at h
      · simp only [mergeLoop, hk]
        exact ih d e h
      · by_cases hh : k.hashable = true
        · rw [if_pos hh] at h
          simp only [mergeLoop, hk, hh, if_true]
          exact ih _ e h
        · have hhF : k.hashable = false := by simpa using hh
          rw [hhF] at h
          simp only [Bool.false_eq_true, if_false, Option.some.injEq] at h
          simp only [mergeLoop, hk, hhF, Bool.false_eq_true, if_false, h]

theorem firstBadMsg_none_iff (l : List Json) :
    firstBadMsg l = none ↔ noUnhashableKeys l = true := by
  induction l with
  | nil => simp [firstBadMsg, noUnhashableKeys]
  | cons b bs ih =>
      rcases hk : effKey b with _ | k <;>
        simp only [firstBadMsg, noUnhashableKeys, List.all_cons, hk, Bool.and_eq_true]
      · rw [ih]; simp [noUnhashableKeys]
      · by_cases hh : k.hashable = true
        · simp only [hh, if_true, true_and]
          rw [ih]; simp [noUnhashableKeys]
        · have hhF : k.hashable = false := by simpa using hh
          simp [hhF]

theorem firstBadMsg_append (l1 l2 : List Json) :
    firstBadMsg (l1 ++ l2) =
      match firstBadMsg l1 with
      | some e => some e
      | none => firstBadMsg l2 := by
  induction l1 with
  | nil => simp [firstBadMsg]
  | cons b bs ih =>
      rcases hk : effKey b with _ | k <;>
        simp only [List.cons_append, firstBadMsg, hk]
      · exact ih
      · by_cases hh : k.hashable = true
        · rw [if_pos hh, if_pos hh]; exact ih
        · have hhF : k.hashable = false := by simpa using hh
          simp [hhF]

theorem mergeBundles_ok_noUnhashable {ex new : List Json} {out : List Json}
    (h : mergeBundles ex new = .ok out) : noUnhashableKeys (ex ++ new) = true := by
  rcases hfb : firstBadMsg (ex ++ new) with _ | e
  · exact (firstBadMsg_none_iff _).mp hfb
  · rw [mergeBundles, mergeLoop_error _ [] e hfb] at h
    simp [Except.map] at h

theorem mergeBundles_eq_specMerge {ex new : List Json}
    (h : noUnhashableKeys (ex ++ new) = true) :
    mergeBundles ex new = .ok (specMerge (ex ++ new)) := by
  rw [mergeBundles, mergeLoop_ok _ [] h]
  simp only [Except.map, updateOld, newEntries, List.map_nil, List.nil_append, List.map_map]
  rfl

theorem mem_mergeBundles_ok {ex new out : List Json} {b : Json}
    (h : mergeBundles ex new = .ok out) (hb : b ∈ out) : ∃ k, effKey b = some k := by
  have hUn := mergeBundles_ok_noUnhashable h
  rw [mergeBundles_eq_specMerge hUn] at h
  have hout : out = specMerge (ex ++ new) := by
    injection h with h2
    exact h2.symm
  rw [hout] at hb
  simp only [specMerge] at hb
  obtain ⟨k, hk, hval⟩ := List.mem_map.mp hb
  obtain ⟨b0, hb0, he0⟩ := mem_of_mem_specKeys _ _ hk
  have hne : (ex ++ new).filter (fun b2 => effKey b2 == some k) ≠ [] := by
    intro hnil
    have : b0 ∈ (ex ++ new).filter (fun b2 => effKey b2 == some k) :=
      List.mem_filter.mpr ⟨hb0, by rw [he0]; exact beq_self_eq_true _⟩
    rw [hnil] at this
    exact List.not_mem_nil _ this
  rcases hlast : ((ex ++ new).filter (fun b2 => effKey b2 == some k)).getLast? with _ | x
  · exact absurd (List.getLast?_eq_none_iff.mp hlast) hne
  · have hxmem : x ∈ (ex ++ new).filter (fun b2 => effKey b2 == some k) :=
      List.mem_of_mem_getLast? hlast
    have hxkey : effKey x = some k := by
      have := (List.mem_filter.mp hxmem).2
      simpa using this
    have hbx : b = x := by
      rw [← hval]
      simp only [lastVal, hlast, Option.getD_some]
    exact ⟨k, by rw [hbx]; exact hxkey⟩


theorem specKeys_complete :
    ∀ (l : List Json) (seen : List Json) (b : Json) (k : Json), b ∈ l →
      effKey b = some k → k ∈ seen ∨ k ∈ specKeys seen l := by
  intro l
  induction l with
  | nil => intro seen b k hb; exact absurd hb (List.not_mem_nil b)
  | cons b0 bs ih =>
      intro seen b k hb hk
      rcases List.mem_cons.mp hb with hEq | hTail
      · subst hEq
        rcases hk0 : effKey b with _ | k0
        · rw [hk0] at hk; exact Option.noConfusion hk
        · rw [hk0] at hk
          have hkk : k0 = k := Option.some.inj hk
          subst hkk
          by_cases hmem : k0 ∈ seen
          · exact Or.inl hmem
          · right
            simp only [specKeys, hk0, if_neg hmem]
            exact List.mem_cons_self _ _
      · rcases hk0 : effKey b0 with _ | k0
        · rcases ih seen b k hTail hk with h | h
          · exact Or.inl h
          · right; simp only [specKeys, hk0]; exact h
        · by_cases hmem : k0 ∈ seen
          · rcases ih seen b k hTail hk with h | h
            · exact Or.inl h
            · right; simp only [specKeys, hk0, if_pos hmem]; exact h
          · rcases ih (k0 :: seen) b k hTail hk with h | h
            · rcases List.mem_cons.mp h with hEq2 | hSeen
              · right
                simp only [specKeys, hk0, if_neg hmem]
                exact hEq2 ▸ List.mem_cons_self _ _
              · exact Or.inl hSeen
            · right
              simp only [specKeys, hk0, if_neg hmem]
              exact List.mem_cons_of_mem _ h

/-- Claim C1: the merge/dedup step concatenates the two bundle collections
preserving encounter order, maps each bundle to its identity key (the
`placeholder` value when that field is present, else the `id` value), with
later entries overwriting earlier entries sharing a key, and returns the
surviving bundles in first-insertion order of their keys (`specMerge`, the
declarative rendering of spec §4.5; a collection holding an unhashable
effective key instead raises the `TypeError` of its first such bundle); in
particular merging `[b1(k), b2(k)]` yields `b2` under `k` and merging
`[b2(k), b1(k)]` yields `b1` under `k`. -/
theorem claim_C1_merge_concat_dedup_last_write_wins :
    (∀ ex new, mergeBundles ex new =
        match firstBadMsg (ex ++ new) with
        | some e => .error e
        | none => .ok (specMerge (ex ++ new)))
    ∧ (∀ b1 b2 k, effKey b1 = some k → effKey b2 = some k → k.hashable = true →
        mergeBundles [b1] [b2] = .ok [b2] ∧ mergeBundles [b2] [b1] = .ok [b1]) := by
  constructor
  · intro ex new
    rcases hfb : firstBadMsg (ex ++ new) with _ | e
    · exact mergeBundles_eq_specMerge ((firstBadMsg_none_iff _).mp hfb)
    · rw [mergeBundles, mergeLoop_error _ [] e hfb]
      rfl
  · intro b1 b2 k h1 h2 hh
    constructor
    · simp [mergeBundles, mergeLoop, h1, h2, hh, dictSet, Except.map]
    · simp [mergeBundles, mergeLoop, h1, h2, hh, dictSet, Except.map]

theorem claim_C1_witness :
    (noUnhashableKeys
        ([Json.obj [("placeholder", Json.str "[PERSON_1]")],
          Json.obj [("id", Json.str "b7")]] ++
         [Json.obj [("placeholder", Json.str "[PERSON_1]"), ("value", Json.str "Alice")]]) = true
      ∧ mergeBundles
          [Json.obj [("placeholder", Json.str "[PERSON_1]")],
           Json.obj [("id", Json.str "b7")]]
          [Json.obj [("placeholder", Json.str "[PERSON_1]"), ("value", Json.str "Alice")]] =
        .ok (specMerge
          ([Json.obj [("placeholder", Json.str "[PERSON_1]")],
            Json.obj [("id", Json.str "b7")]] ++
           [Json.obj [("placeholder", Json.str "[PERSON_1]"), ("value", Json.str "Alice")]])))
    ∧ (effKey (Json.obj [("placeholder", Json.str "[P_9]"), ("value", Json.str "v1")]) =
          some (Json.str "[P_9]")
      ∧ effKey (Json.obj [("placeholder", Json.str "[P_9]"), ("value", Json.str "v2")]) =
          some (Json.str "[P_9]")
      ∧ mergeBundles [Json.obj [("placeholder", Json.str "[P_9]"), ("value", Json.str "v1")]]
          [Json.obj [("placeholder", Json.str "[P_9]"), ("value", Json.str "v2")]] =
        .ok [Json.obj [("placeholder", Json.str "[P_9]"), ("value", Json.str "v2")]]
      ∧ mergeBundles [Json.obj [("placeholder", Json.str "[P_9]"), ("value", Json.str "v2")]]
          [Json.obj [("placeholder", Json.str "[P_9]"), ("value", Json.str "v1")]] =
        .ok [Json.obj [("placeholder", Json.str "[P_9]"), ("value", Json.str "v1")]]) := by
  refine ⟨⟨by decide, claim_C1_merge_concat_dedup_last_write_wins.1 _ _⟩,
          by decide, by decide, ?_, ?_⟩
  · exact (claim_C1_merge_concat_dedup_last_write_wins.2 _ _ (Json.str "[P_9]")
      (by decide) (by decide) (by decide)).1
  · exact (claim_C1_merge_concat_dedup_last_write_wins.2 _ _ (Json.str "[P_9]")
      (by decide) (by decide) (by decide)).2

/-- Claim C5: merging a bundle collection `B` with itself yields exactly
the merge of `B` with the empty collection — same keys, same values, same
first-occurrence order (and the same `TypeError` when `B` holds an
unhashable key). -/
theorem claim_C5_merge_idempotent (B : List Json) :
    mergeBundles B B = mergeBundles B [] := by
  rcases hfb : firstBadMsg B with _ | e
  · have hUnB : noUnhashableKeys B = true := (firstBadMsg_none_iff _).mp hfb
    have hUnBB : noUnhashableKeys (B ++ B) = true := by
      unfold noUnhashableKeys at hUnB ⊢
      rw [List.all_append, hUnB]
      rfl
    rw [mergeBundles_eq_specMerge hUnBB,
        @mergeBundles_eq_specMerge B [] (by rwa [List.append_nil])]
    rw [List.append_nil]
    unfold specMerge
    have hkeys : specKeys [] (B ++ B) = specKeys [] B := by
      rw [specKeys_append]
      have hcov : specKeys (specKeys [] B ++ []) B = [] := by
        refine specKeys_covered _ _ ?_
        intro b hb k hk
        rcases specKeys_complete B [] b k hb hk with h | h
        · exact absurd h (List.not_mem_nil k)
        · exact List.mem_append.mpr (Or.inl h)
      rw [hcov, List.append_nil]
    rw [hkeys]
    refine congrArg _ (List.map_congr_left (fun k _ => ?_))
    rw [lastVal_self_append]
  · have h1 : firstBadMsg (B ++ B) = some e := by rw [firstBadMsg_append, hfb]
    have h2 : firstBadMsg (B ++ []) = some e := by rw [firstBadMsg_append, hfb]
    rw [mergeBundles, mergeBundles, mergeLoop_error _ [] e h1, mergeLoop_error _ [] e h2]

/-- Claim C6: a bundle with no identity key — not a record at all, or a
record with neither a `placeholder` nor an `id` field — never appears in
the merge output, whatever its position in either collection. -/
theorem claim_C6_unresolvable_bundles_dropped
    (ex new out : List Json) (b : Json)
    (hkey : bundle_key b = none) (hout : mergeBundles ex new = .ok out) :
    b ∉ out := by
  intro hb
  obtain ⟨k, hk⟩ := mem_mergeBundles_ok hout hb
  simp only [effKey, hkey] at hk
  exact Option.noConfusion hk

theorem claim_C6_witness :
    bundle_key (Json.obj [("payload", Json.str "x")]) = none
    ∧ mergeBundles
        [Json.obj [("payload", Json.str "x")],
         Json.obj [("placeholder", Json.str "[P_1]")]] [] =
      .ok [Json.obj [("placeholder", Json.str "[P_1]")]]
    ∧ Json.obj [("payload", Json.str "x")] ∉
        [Json.obj [("placeholder", Json.str "[P_1]")]] :=
  ⟨by decide, by decide,
   claim_C6_unresolvable_bundles_dropped
     [Json.obj [("payload", Json.str "x")], Json.obj [("placeholder", Json.str "[P_1]")]] []
     [Json.obj [("placeholder", Json.str "[P_1]")]] (Json.obj [("payload", Json.str "x")])
     (by decide) (by decide)⟩

/-- Claim C10: when a bundle carries a `placeholder` field holding a falsy
value (empty string or null), the key function returns that value without
falling back to `id` even when a usable `id` field is present, and the
falsy key makes the merge drop the bundle from its output. -/
theorem claim_C10_falsy_placeholder_never_falls_back :
    (∀ fields v, getField fields "placeholder" = some v →
        bundle_key (Json.obj fields) = some v)
    ∧ (∀ ex new out fields v, getField fields "placeholder" = some v →
        Json.falsy v = true → mergeBundles ex new = .ok out →
        Json.obj fields ∉ out) := by
  constructor
  · intro fields v h
    simp only [bundle_key, h]
  · intro ex new out fields v hget hfalsy hout hb
    obtain ⟨k, hk⟩ := mem_mergeBundles_ok hout hb
    simp only [effKey, bundle_key, hget, hfalsy, if_true] at hk
    exact Option.noConfusion hk

theorem claim_C10_witness :
    getField [("placeholder", Json.str ""), ("id", Json.str "b9")] "placeholder" =
        some (Json.str "")
    ∧ bundle_key (Json.obj [("placeholder", Json.str ""), ("id", Json.str "b9")]) =
        some (Json.str "")
    ∧ Json.falsy (Json.str "") = true
    ∧ mergeBundles [Json.obj [("placeholder", Json.str ""), ("id", Json.str "b9")]] [] =
        .ok []
    ∧ Json.obj [("placeholder", Json.str ""), ("id", Json.str "b9")] ∉ ([] : List Json) :=
  ⟨by decide,
   claim_C10_falsy_placeholder_never_falls_back.1 _ _ (by decide),
   by decide, by decide,
   claim_C10_falsy_placeholder_never_falls_back.2
     [Json.obj [("placeholder", Json.str ""), ("id", Json.str "b9")]] [] []
     [("placeholder", Json.str ""), ("id", Json.str "b9")] (Json.str "")
     (by decide) (by decide) (by decide)⟩


theorem mem_dictSetStr {α : Type} {d : List (String × α)} {p : String × α} {k : String}
    {v : α} (hp : p ∈ d) (hne : p.1 ≠ k) : p ∈ dictSetStr d k v := by
  unfold dictSetStr
  by_cases h : d.any (fun q => q.1 == k) = true
  · rw [if_pos h]
    refine List.mem_map.mpr ⟨p, hp, ?_⟩
    have hb : (p.1 == k) = false := by simpa using hne
    simp [hb]
  · rw [if_neg h]
    exact List.mem_append.mpr (Or.inl hp)

/-- Claim C7: for an order present in the store (a non-empty record, which
is what the `if not order` truthiness test of the source lets through)
whose stored bundle set is empty or absent, `get_order_decrypted` returns
the stored placeholder-encoded fields annotated with the
"Bundles not found" note, and issues no decrypt call: its result is
identical under every decrypt oracle. -/
theorem claim_C7_degraded_decrypt_missing_bundles
    (store : Store) (oid : String) (order : List (String × Json))
    (d1 d2 : List (String × Json) → List Json → Except String (List (String × Json)))
    (hord : dictGet store.orders oid = some order) (hne : order ≠ [])
    (hbun : get_bundles store oid = []) :
    get_order_decrypted d1 store oid =
      dictSetStr (dictSetStr order "order_id" (Json.str oid))
        "note" (Json.str "Bundles not found for decryption")
    ∧ get_order_decrypted d1 store oid = get_order_decrypted d2 store oid := by
  have hempty : order.isEmpty = false := by
    cases order with
    | nil => exact absurd rfl hne
    | cons a l => rfl
  constructor <;> simp [get_order_decrypted, hord, hempty, hbun]

theorem claim_C7_witness :
    dictGet (Store.mk [("ORD-001", [("customer", Json.str "[PERSON_1]")])] [] 2).orders
        "ORD-001" = some [("customer", Json.str "[PERSON_1]")]
    ∧ ([("customer", Json.str "[PERSON_1]")] : List (String × Json)) ≠ []
    ∧ get_bundles (Store.mk [("ORD-001", [("customer", Json.str "[PERSON_1]")])] [] 2)
        "ORD-001" = []
    ∧ get_order_decrypted (fun _ _ => .error "unreachable")
        (Store.mk [("ORD-001", [("customer", Json.str "[PERSON_1]")])] [] 2) "ORD-001" =
      dictSetStr (dictSetStr [("customer", Json.str "[PERSON_1]")] "order_id"
          (Json.str "ORD-001"))
        "note" (Json.str "Bundles not found for decryption")
    ∧ get_order_decrypted (fun _ _ => .error "unreachable")
        (Store.mk [("ORD-001", [("customer", Json.str "[PERSON_1]")])] [] 2) "ORD-001" =
      get_order_decrypted (fun o _ => .ok o)
        (Store.mk [("ORD-001", [("customer", Json.str "[PERSON_1]")])] [] 2) "ORD-001" := by
  refine ⟨by decide, by decide, by decide, ?_, ?_⟩
  · exact (claim_C7_degraded_decrypt_missing_bundles
      (Store.mk [("ORD-001", [("customer", Json.str "[PERSON_1]")])] [] 2) "ORD-001"
      [("customer", Json.str "[PERSON_1]")]
      (fun _ _ => .error "unreachable") (fun o _ => .ok o)
      (by decide) (by decide) (by decide)).1
  · exact (claim_C7_degraded_decrypt_missing_bundles
      (Store.mk [("ORD-001", [("customer", Json.str "[PERSON_1]")])] [] 2) "ORD-001"
      [("customer", Json.str "[PERSON_1]")]
      (fun _ _ => .error "unreachable") (fun o _ => .ok o)
      (by decide) (by decide) (by decide)).2

/-- Claim C8: when the decrypt round trip fails while resolving an order
that exists (non-empty record) and has a non-empty stored bundle set,
`get_order_decrypted` does not raise: it returns the stored record with
its placeholder-encoded fields intact — every original field other than
the two annotation keys survives unchanged — annotated under
`decrypt_error` with the failure reason. -/
theorem claim_C8_lookup_decrypt_failure_recoverable
    (store : Store) (oid : String) (order : List (String × Json))
    (decryptOrder : List (String × Json) → List Json → Except String (List (String × Json)))
    (e : String)
    (hord : dictGet store.orders oid = some order) (hne : order ≠ [])
    (hbun : get_bundles store oid ≠ [])
    (hfail : decryptOrder order (get_bundles store oid) = .error e) :
    get_order_decrypted decryptOrder store oid =
      dictSetStr (dictSetStr order "order_id" (Json.str oid))
        "decrypt_error" (Json.str ("Cryptor service error: " ++ e))
    ∧ ∀ p ∈ order, p.1 ≠ "order_id" → p.1 ≠ "decrypt_error" →
        p ∈ get_order_decrypted decryptOrder store oid := by
  have hempty : order.isEmpty = false := by
    cases order with
    | nil => exact absurd rfl hne
    | cons a l => rfl
  have hbEmpty : (get_bundles store oid).isEmpty = false := by
    rcases hb : get_bundles store oid with _ | ⟨x, xs⟩
    · exact absurd hb hbun
    · rfl
  have hmain : get_order_decrypted decryptOrder store oid =
      dictSetStr (dictSetStr order "order_id" (Json.str oid))
        "decrypt_error" (Json.str ("Cryptor service error: " ++ e)) := by
    simp [get_order_decrypted, hord, hempty, hbEmpty, hfail]
  refine ⟨hmain, ?_⟩
  intro p hp h1 h2
  rw [hmain]
  exact mem_dictSetStr (mem_dictSetStr hp h1) h2

theorem claim_C8_witness :
    dictGet (Store.mk [("ORD-001", [("customer", Json.str "[PERSON_1]")])]
        [("ORD-001", [Json.obj [("id", Json.str "b1")]])] 2).orders "ORD-001" =
      some [("customer", Json.str "[PERSON_1]")]
    ∧ get_bundles (Store.mk [("ORD-001", [("customer", Json.str "[PERSON_1]")])]
        [("ORD-001", [Json.obj [("id", Json.str "b1")]])] 2) "ORD-001" ≠ []
    ∧ get_order_decrypted (fun _ _ => .error "boom")
        (Store.mk [("ORD-001", [("customer", Json.str "[PERSON_1]")])]
          [("ORD-001", [Json.obj [("id", Json.str "b1")]])] 2) "ORD-001" =
      dictSetStr (dictSetStr [("customer", Json.str "[PERSON_1]")] "order_id"
          (Json.str "ORD-001"))
        "decrypt_error" (Json.str ("Cryptor service error: " ++ "boom"))
    ∧ ("customer", Json.str "[PERSON_1]") ∈
        get_order_decrypted (fun _ _ => .error "boom")
          (Store.mk [("ORD-001", [("customer", Json.str "[PERSON_1]")])]
            [("ORD-001", [Json.obj [("id", Json.str "b1")]])] 2) "ORD-001" := by
  refine ⟨by decide, by decide, ?_, ?_⟩
  · exact (claim_C8_lookup_decrypt_failure_recoverable
      (Store.mk [("ORD-001", [("customer", Json.str "[PERSON_1]")])]
        [("ORD-001", [Json.obj [("id", Json.str "b1")]])] 2) "ORD-001"
      [("customer", Json.str "[PERSON_1]")]
      (fun _ _ => .error "boom") "boom" (by decide) (by decide) (by decide) (by decide)).1
  · exact (claim_C8_lookup_decrypt_failure_recoverable
      (Store.mk [("ORD-001", [("customer", Json.str "[PERSON_1]")])]
        [("ORD-001", [Json.obj [("id", Json.str "b1")]])] 2) "ORD-001"
      [("customer", Json.str "[PERSON_1]")]
      (fun _ _ => .error "boom") "boom" (by decide) (by decide) (by decide) (by decide)).2
      ("customer", Json.str "[PERSON_1]") (by decide) (by decide) (by decide)


/-- Decimal decoding of a digit string, used as a left inverse of the
order-id rendering (leading zeros do not change the decoded value). -/
def decodeChars (cs : List Char) : Nat :=
  cs.foldl (fun a c => a * 10 + (c.toNat - 48)) 0

theorem digitChar_toNat {d : Nat} (h : d < 10) : (digitChar d).toNat = 48 + d := by
  interval_cases d <;> rfl

theorem foldr_digits_eq_ofDigits (l : List Nat) (h : ∀ d ∈ l, d < 10) :
    l.foldr (fun d a => a * 10 + ((digitChar d).toNat - 48)) 0 = Nat.ofDigits 10 l := by
  induction l with
  | nil => simp [Nat.ofDigits_nil]
  | cons d ds ih =>
      have hd : d < 10 := h d (List.mem_cons_self _ _)
      have hds := ih (fun x hx => h x (List.mem_cons_of_mem _ hx))
      simp only [List.foldr_cons, hds, Nat.ofDigits_cons, digitChar_toNat hd]
      omega

theorem decodeChars_reprChars (n : Nat) : decodeChars (reprChars n) = n := by
  by_cases h0 : n = 0
  · subst h0; rfl
  · unfold decodeChars reprChars
    rw [if_neg h0, List.foldl_map, List.foldl_reverse]
    rw [foldr_digits_eq_ofDigits _ (fun d hd => Nat.digits_lt_base (by norm_num) hd)]
    exact Nat.ofDigits_digits 10 n

theorem decodeChars_pad (m : Nat) (cs : List Char) :
    decodeChars (List.replicate m (Char.ofNat 48) ++ cs) = decodeChars cs := by
  unfold decodeChars
  rw [List.foldl_append]
  have hz : List.foldl (fun a c => a * 10 + (c.toNat - 48)) 0
      (List.replicate m (Char.ofNat 48)) = 0 := by
    induction m with
    | zero => rfl
    | succ m ih => simpa [List.replicate_succ] using ih
  rw [hz]

theorem decodeChars_pad3Chars (n : Nat) : decodeChars (pad3Chars n) = n := by
  unfold pad3Chars
  rw [decodeChars_pad]
  exact decodeChars_reprChars n

theorem orderIdOf_inj {a b : Nat} (h : orderIdOf a = orderIdOf b) : a = b := by
  unfold orderIdOf at h
  have hdata := congrArg String.data h
  rw [String.data_append, String.data_append] at hdata
  have hpad : pad3Chars a = pad3Chars b := List.append_cancel_left hdata
  have := congrArg decodeChars hpad
  rwa [decodeChars_pad3Chars, decodeChars_pad3Chars] at this

theorem dictGet_none_iff_any {α : Type} (d : List (String × α)) (k : String) :
    dictGet d k = none ↔ d.any (fun p => p.1 == k) = false := by
  induction d with
  | nil => simp [dictGet]
  | cons p rest ih =>
      rcases p with ⟨k2, v⟩
      by_cases hk : k2 = k
      · simp [dictGet, hk]
      · simp only [dictGet, if_neg hk, List.any_cons]
        have : (k2 == k) = false := by simpa using hk
        simp [this, ih]

theorem dictSetStr_of_none {α : Type} {d : List (String × α)} {k : String} (v : α)
    (h : dictGet d k = none) : dictSetStr d k v = d ++ [(k, v)] := by
  unfold dictSetStr
  rw [(dictGet_none_iff_any d k).mp h]
  rfl

theorem dictGet_append {α : Type} (d1 d2 : List (String × α)) (k : String) :
    dictGet (d1 ++ d2) k =
      match dictGet d1 k with
      | some v => some v
      | none => dictGet d2 k := by
  induction d1 with
  | nil => simp [dictGet]
  | cons p rest ih =>
      rcases p with ⟨k2, v⟩
      by_cases hk : k2 = k <;> simp [dictGet, hk, ih]

/-- The order record written by `create_order` for one request. -/
def mkOrderRecord (r : CreateReq) : List (String × Json) :=
  [("customer", r.customer), ("email", r.email), ("phone", r.phone), ("address", r.address),
   ("items", r.items), ("status", Json.str "processing"), ("created_at", Json.str r.now)]


theorem dictGet_singleton {α : Type} (k k2 : String) (v : α) :
    dictGet [(k, v)] k2 = if k = k2 then some v else none := by
  simp [dictGet]

theorem runCreates_spec :
    ∀ (reqs : List CreateReq) (store : Store),
      (∀ j, store.counter ≤ j → dictGet store.orders (orderIdOf j) = none) →
      (∀ j, store.counter ≤ j → dictGet store.bundlesStorage (orderIdOf j) = none) →
      (runCreates store reqs).2 = (List.range reqs.length).map (fun k =>
          [("order_id", Json.str (orderIdOf (store.counter + k))),
           ("status", Json.str "created")])
      ∧ (runCreates store reqs).1.counter = store.counter + reqs.length
      ∧ (∀ k (hk : k < reqs.length),
          dictGet (runCreates store reqs).1.orders (orderIdOf (store.counter + k)) =
            some (mkOrderRecord (reqs.get ⟨k, hk⟩))
          ∧ dictGet (runCreates store reqs).1.bundlesStorage (orderIdOf (store.counter + k)) =
            some (reqs.get ⟨k, hk⟩).bundles)
      ∧ (∀ key, (∀ j, store.counter ≤ j → key ≠ orderIdOf j) →
          dictGet (runCreates store reqs).1.orders key = dictGet store.orders key
          ∧ dictGet (runCreates store reqs).1.bundlesStorage key =
            dictGet store.bundlesStorage key) := by
  intro reqs
  induction reqs with
  | nil =>
      intro store h1 h2
      refine ⟨by simp [runCreates], by simp [runCreates], ?_, ?_⟩
      · intro k hk; exact absurd hk (by simp)
      · intro key hkey; exact ⟨rfl, rfl⟩
  | cons r rs ih =>
      intro store h1 h2
      have hfresh1 : dictGet store.orders (orderIdOf store.counter) = none :=
        h1 store.counter le_rfl
      have hfresh2 : dictGet store.bundlesStorage (orderIdOf store.counter) = none :=
        h2 store.counter le_rfl
      have hstep : runCreates store (r :: rs) =
          ((runCreates (Store.mk
              (dictSetStr store.orders (orderIdOf store.counter) (mkOrderRecord r))
              (dictSetStr store.bundlesStorage (orderIdOf store.counter) r.bundles)
              (store.counter + 1)) rs).1,
            [("order_id", Json.str (orderIdOf store.counter)), ("status", Json.str "created")] ::
              (runCreates (Store.mk
                (dictSetStr store.orders (orderIdOf store.counter) (mkOrderRecord r))
                (dictSetStr store.bundlesStorage (orderIdOf store.counter) r.bundles)
                (store.counter + 1)) rs).2) := rfl
      rw [dictSetStr_of_none _ hfresh1, dictSetStr_of_none _ hfresh2] at hstep
      set store2 : Store := Store.mk
          (store.orders ++ [(orderIdOf store.counter, mkOrderRecord r)])
          (store.bundlesStorage ++ [(orderIdOf store.counter, r.bundles)])
          (store.counter + 1) with hstore2
      have hget2o : ∀ key, dictGet store2.orders key =
          match dictGet store.orders key with
          | some v => some v
          | none => if orderIdOf store.counter = key then some (mkOrderRecord r) else none := by
        intro key
        rw [hstore2]
        rw [dictGet_append]
        rcases dictGet store.orders key with _ | v
        · simp [dictGet_singleton]
        · rfl
      have hget2b : ∀ key, dictGet store2.bundlesStorage key =
          match dictGet store.bundlesStorage key with
          | some v => some v
          | none => if orderIdOf store.counter = key then some r.bundles else none := by
        intro key
        rw [hstore2]
        rw [dictGet_append]
        rcases dictGet store.bundlesStorage key with _ | v
        · simp [dictGet_singleton]
        · rfl
      have hne : ∀ j, store.counter + 1 ≤ j → orderIdOf store.counter ≠ orderIdOf j := by
        intro j hj heq
        have := orderIdOf_inj heq
        omega
      have h1' : ∀ j, store2.counter ≤ j → dictGet store2.orders (orderIdOf j) = none := by
        intro j hj
        rw [hget2o, h1 j (by rw [hstore2] at hj; simp at hj; omega)]
        simp only [if_neg (hne j (by rw [hstore2] at hj; simpa using hj))]
      have h2' : ∀ j, store2.counter ≤ j →
          dictGet store2.bundlesStorage (orderIdOf j) = none := by
        intro j hj
        rw [hget2b, h2 j (by rw [hstore2] at hj; simp at hj; omega)]
        simp only [if_neg (hne j (by rw [hstore2] at hj; simpa using hj))]
      obtain ⟨ihres, ihcount, ihget, ihpres⟩ := ih store2 h1' h2'
      refine ⟨?_, ?_, ?_, ?_⟩
      · rw [hstep]
        simp only [List.length_cons, List.range_succ_eq_map, List.map_cons, List.map_map]
        rw [ihres]
        refine congrArg₂ _ (by simp) ?_
        refine List.map_congr_left (fun k _ => ?_)
        have : store2.counter + k = store.counter + Nat.succ k := by
          rw [hstore2]; simp; omega
        simp only [Function.comp_apply, this]
      · rw [hstep]
        simp only
        rw [ihcount, hstore2]
        simp
        omega
      · intro k hk
        cases k with
        | zero =>
            have hkeyne : ∀ j, store2.counter ≤ j →
                orderIdOf store.counter ≠ orderIdOf j := by
              intro j hj
              exact hne j (by rw [hstore2] at hj; simpa using hj)
            obtain ⟨ho, hb⟩ := ihpres (orderIdOf store.counter) hkeyne
            rw [hstep]
            simp only [Nat.add_zero, List.get_cons_zero]
            constructor
            · rw [ho, hget2o, hfresh1]
              simp
            · rw [hb, hget2b, hfresh2]
              simp
        | succ k =>
            have hk' : k < rs.length := by simpa using hk
            obtain ⟨ho, hb⟩ := ihget k hk'
            have hco : store.counter + Nat.succ k = store2.counter + k := by
              rw [hstore2]; simp; omega
            rw [hstep]
            simp only [hco]
            exact ⟨by rw [ho]; rfl, by rw [hb]; rfl⟩
      · intro key hkey
        have hkey2 : ∀ j, store2.counter ≤ j → key ≠ orderIdOf j := by
          intro j hj
          exact hkey j (by rw [hstore2] at hj; simp at hj; omega)
        obtain ⟨ho, hb⟩ := ihpres key hkey2
        rw [hstep]
        constructor
        · rw [ho, hget2o]
          rcases hkg : dictGet store.orders key with _ | v
          · simp only [if_neg (hkey store.counter le_rfl ∘ Eq.symm)]
          · rfl
        · rw [hb, hget2b]
          rcases hkg : dictGet store.bundlesStorage key with _ | v
          · simp only [if_neg (hkey store.counter le_rfl ∘ Eq.symm)]
          · rfl


/-- Claim C9: starting from a fresh store (counter 1), the k-th successful
create-order call (0-based) returns the acknowledgment carrying identifier
`orderIdOf (1 + k)` — `ORD-` with the counter zero-padded to three digits —
so the ids are monotonically increasing with no gaps; the rendering is
injective, so no id is reused within the process lifetime; and each call
stores its order record (status `processing`) and persists the supplied
pipeline bundles as that order's bundle set. -/
theorem claim_C9_order_ids_monotonic_no_reuse (reqs : List CreateReq) :
    (∀ a b : Nat, orderIdOf a = orderIdOf b → a = b)
    ∧ (runCreates (Store.mk [] [] 1) reqs).2 =
        (List.range reqs.length).map (fun k =>
          [("order_id", Json.str (orderIdOf (1 + k))), ("status", Json.str "created")])
    ∧ (∀ k (hk : k < reqs.length),
        dictGet (runCreates (Store.mk [] [] 1) reqs).1.orders (orderIdOf (1 + k)) =
          some (mkOrderRecord (reqs.get ⟨k, hk⟩))
        ∧ getField (mkOrderRecord (reqs.get ⟨k, hk⟩)) "status" = some (Json.str "processing")
        ∧ dictGet (runCreates (Store.mk [] [] 1) reqs).1.bundlesStorage (orderIdOf (1 + k)) =
          some (reqs.get ⟨k, hk⟩).bundles) := by
  obtain ⟨hres, _, hget, _⟩ := runCreates_spec reqs (Store.mk [] [] 1)
    (fun j _ => rfl) (fun j _ => rfl)
  refine ⟨fun a b h => orderIdOf_inj h, hres, ?_⟩
  intro k hk
  obtain ⟨ho, hb⟩ := hget k hk
  exact ⟨ho, rfl, hb⟩

theorem orderIdOf_one : orderIdOf 1 = "ORD-001" := by
  have h : Nat.digits 10 1 = [1] := by norm_num
  unfold orderIdOf pad3Chars reprChars
  rw [if_neg (by norm_num), h]
  rfl

theorem orderIdOf_two : orderIdOf 2 = "ORD-002" := by
  have h : Nat.digits 10 2 = [2] := by norm_num
  unfold orderIdOf pad3Chars reprChars
  rw [if_neg (by norm_num), h]
  rfl

theorem claim_C9_witness :
    (runCreates (Store.mk [] [] 1)
        [CreateReq.mk (Json.str "[PERSON_1]") (Json.str "[EMAIL_1]") (Json.str "[PHONE_1]")
           (Json.str "[LOCATION_1]") (Json.str "20 roses")
           [Json.obj [("placeholder", Json.str "[PERSON_1]")]] "2026-10-12 10:00",
         CreateReq.mk (Json.str "[PERSON_2]") (Json.str "[EMAIL_2]") (Json.str "[PHONE_2]")
           (Json.str "[LOCATION_2]") (Json.str "5 tulips")
           [Json.obj [("placeholder", Json.str "[PERSON_2]")]] "2026-10-12 11:00"]).2 =
      [[("order_id", Json.str "ORD-001"), ("status", Json.str "created")],
       [("order_id", Json.str "ORD-002"), ("status", Json.str "created")]]
    ∧ dictGet (runCreates (Store.mk [] [] 1)
        [CreateReq.mk (Json.str "[PERSON_1]") (Json.str "[EMAIL_1]") (Json.str "[PHONE_1]")
           (Json.str "[LOCATION_1]") (Json.str "20 roses")
           [Json.obj [("placeholder", Json.str "[PERSON_1]")]] "2026-10-12 10:00",
         CreateReq.mk (Json.str "[PERSON_2]") (Json.str "[EMAIL_2]") (Json.str "[PHONE_2]")
           (Json.str "[LOCATION_2]") (Json.str "5 tulips")
           [Json.obj [("placeholder", Json.str "[PERSON_2]")]] "2026-10-12 11:00"]).1.orders
        "ORD-001" =
      some (mkOrderRecord
        (CreateReq.mk (Json.str "[PERSON_1]") (Json.str "[EMAIL_1]") (Json.str "[PHONE_1]")
           (Json.str "[LOCATION_1]") (Json.str "20 roses")
           [Json.obj [("placeholder", Json.str "[PERSON_1]")]] "2026-10-12 10:00"))
    ∧ dictGet (runCreates (Store.mk [] [] 1)
        [CreateReq.mk (Json.str "[PERSON_1]") (Json.str "[EMAIL_1]") (Json.str "[PHONE_1]")
           (Json.str "[LOCATION_1]") (Json.str "20 roses")
           [Json.obj [("placeholder", Json.str "[PERSON_1]")]] "2026-10-12 10:00",
         CreateReq.mk (Json.str "[PERSON_2]") (Json.str "[EMAIL_2]") (Json.str "[PHONE_2]")
           (Json.str "[LOCATION_2]") (Json.str "5 tulips")
           [Json.obj [("placeholder", Json.str "[PERSON_2]")]] "2026-10-12 11:00"]).1.bundlesStorage
        "ORD-002" =
      some [Json.obj [("placeholder", Json.str "[PERSON_2]")]] := by
  obtain ⟨_, hres, hget⟩ := claim_C9_order_ids_monotonic_no_reuse
    [CreateReq.mk (Json.str "[PERSON_1]") (Json.str "[EMAIL_1]") (Json.str "[PHONE_1]")
       (Json.str "[LOCATION_1]") (Json.str "20 roses")
       [Json.obj [("placeholder", Json.str "[PERSON_1]")]] "2026-10-12 10:00",
     CreateReq.mk (Json.str "[PERSON_2]") (Json.str "[EMAIL_2]") (Json.str "[PHONE_2]")
       (Json.str "[LOCATION_2]") (Json.str "5 tulips")
       [Json.obj [("placeholder", Json.str "[PERSON_2]")]] "2026-10-12 11:00"]
  refine ⟨?_, ?_, ?_⟩
  · rw [hres]
    norm_num [List.range_succ, orderIdOf_one, orderIdOf_two]
  · have h := (hget 0 (by norm_num)).1
    rw [orderIdOf_one] at h
    exact h
  · have h := (hget 1 (by norm_num)).2.2
    rw [orderIdOf_two] at h
    exact h


/-- Claim C4 (amended): for every order identifier absent from the order
store and also absent from the bundle store, executing a `get_order` action
with that identifier returns the not-found result and contributes zero
bundles, so the pipeline bundles after stage 3 are exactly the merge of
the stage-1 bundles with the empty collection.  (The absence from the
bundle store is needed: `execute_action` fetches stored bundles for the
requested id even when the order itself is missing.) -/
theorem claim_C4_lookup_miss_contributes_nothing
    (now : String) (store : Store) (st : ServiceState) (oid : String) (fb : List Json)
    (hact : st.action = some (Json.obj [("action", Json.str "get_order"),
                                        ("order_id", Json.str oid)]))
    (hord : dictGet store.orders oid = none)
    (hbun : dictGet store.bundlesStorage oid = none)
    (hmerge : mergeBundles st.bundles [] = .ok fb) :
    get_order store oid = [("error", Json.str "Order not found")]
    ∧ execute_action now store st = .ok (store,
        { st with tool_result := some (Json.obj [("error", Json.str "Order not found")]),
                  bundles := fb }) := by
  have hgo : get_order store oid = [("error", Json.str "Order not found")] := by
    simp [get_order, hord]
  have hgb : get_bundles store oid = [] := by simp [get_bundles, hbun]
  refine ⟨hgo, ?_⟩
  simp [execute_action, hact, dispatchAction, getField, hgo, hgb, hmerge]

/-- Claim C4 counterexample: the claim as stated fails on a store holding
an orphan bundle entry for an identifier with no order record.  Executing
`get_order ORD-999` on such a store returns the not-found result but still
contributes the stored bundle, so the stage-3 pipeline bundles are not the
merge of the stage-1 bundles (here empty) with the empty collection. -/
theorem claim_C4_counterexample :
    dictGet (Store.mk [] [("ORD-999", [Json.obj [("id", Json.str "orphan")]])] 1).orders
        "ORD-999" = none
    ∧ execute_action "2026-10-12 10:00"
        (Store.mk [] [("ORD-999", [Json.obj [("id", Json.str "orphan")]])] 1)
        (ServiceState.mk "q" none [] "t"
          (some (Json.obj [("action", Json.str "get_order"),
                           ("order_id", Json.str "ORD-999")])) none none none) =
      .ok (Store.mk [] [("ORD-999", [Json.obj [("id", Json.str "orphan")]])] 1,
        ServiceState.mk "q" none [Json.obj [("id", Json.str "orphan")]] "t"
          (some (Json.obj [("action", Json.str "get_order"),
                           ("order_id", Json.str "ORD-999")]))
          (some (Json.obj [("error", Json.str "Order not found")])) none none)
    ∧ mergeBundles ([] : List Json) [] = .ok []
    ∧ [Json.obj [("id", Json.str "orphan")]] ≠ ([] : List Json) := by
  refine ⟨rfl, by decide, rfl, by decide⟩

theorem claim_C4_witness :
    dictGet (Store.mk [] [] 1).orders "ORD-999" = none
    ∧ dictGet (Store.mk [] [] 1).bundlesStorage "ORD-999" = none
    ∧ mergeBundles [Json.obj [("placeholder", Json.str "[P_1]")]] [] =
        .ok [Json.obj [("placeholder", Json.str "[P_1]")]]
    ∧ get_order (Store.mk [] [] 1) "ORD-999" = [("error", Json.str "Order not found")]
    ∧ execute_action "2026-10-12 10:00" (Store.mk [] [] 1)
        (ServiceState.mk "q" none [Json.obj [("placeholder", Json.str "[P_1]")]] "t"
          (some (Json.obj [("action", Json.str "get_order"),
                           ("order_id", Json.str "ORD-999")])) none none none) =
      .ok (Store.mk [] [] 1,
        ServiceState.mk "q" none [Json.obj [("placeholder", Json.str "[P_1]")]] "t"
          (some (Json.obj [("action", Json.str "get_order"),
                           ("order_id", Json.str "ORD-999")]))
          (some (Json.obj [("error", Json.str "Order not found")])) none none) := by
  have h := claim_C4_lookup_miss_contributes_nothing "2026-10-12 10:00" (Store.mk [] [] 1)
    (ServiceState.mk "q" none [Json.obj [("placeholder", Json.str "[P_1]")]] "t"
      (some (Json.obj [("action", Json.str "get_order"),
                       ("order_id", Json.str "ORD-999")])) none none none)
    "ORD-999" [Json.obj [("placeholder", Json.str "[P_1]")]]
    rfl rfl rfl (by decide)
  exact ⟨rfl, rfl, by decide, h.1, h.2⟩



theorem process_input_error_runtime {enc : String → Except String EncryptResponse}
    {st : ServiceState} {e : PyErr} (h : process_input enc st = .error e) :
    ∃ m, e = PyErr.runtime m := by
  unfold process_input at h
  rcases he : enc st.user_input with er | d <;> simp only [he] at h
  · exact ⟨_, (Except.error.inj h).symm⟩
  · exact Except.noConfusion h

theorem determine_action_error_runtime {llm : String → Except String String}
    {loads : String → Option Json} {st : ServiceState} {e : PyErr}
    (h : determine_action llm loads st = .error e) : ∃ m, e = PyErr.runtime m := by
  unfold determine_action at h
  rcases he : llm (actionPrompt st.encrypted_input) with er | raw <;> simp only [he] at h
  · exact ⟨_, (Except.error.inj h).symm⟩
  · rcases hl : loads (pySlice (pyStrip raw) (pyFind (pyStrip raw) (Char.ofNat 123))
        (pyRFind (pyStrip raw) (Char.ofNat 125) + 1)) with _ | action_data <;>
      simp only [hl] at h
    · exact ⟨_, (Except.error.inj h).symm⟩
    · rcases action_data with _ | b | n | s | xs | fields
      · exact ⟨_, (Except.error.inj h).symm⟩
      · exact ⟨_, (Except.error.inj h).symm⟩
      · exact ⟨_, (Except.error.inj h).symm⟩
      · exact ⟨_, (Except.error.inj h).symm⟩
      · exact ⟨_, (Except.error.inj h).symm⟩
      · rcases hg : getField fields "action" with _ | v <;> simp only [hg] at h
        · exact ⟨_, (Except.error.inj h).symm⟩
        · exact Except.noConfusion h

theorem determine_action_ok_action {llm : String → Except String String}
    {loads : String → Option Json} {st st2 : ServiceState}
    (h : determine_action llm loads st = .ok st2) :
    ∃ fields, st2.action = some (Json.obj fields) := by
  unfold determine_action at h
  rcases he : llm (actionPrompt st.encrypted_input) with er | raw <;> simp only [he] at h
  · exact Except.noConfusion h
  · rcases hl : loads (pySlice (pyStrip raw) (pyFind (pyStrip raw) (Char.ofNat 123))
        (pyRFind (pyStrip raw) (Char.ofNat 125) + 1)) with _ | action_data <;>
      simp only [hl] at h
    · exact Except.noConfusion h
    · rcases action_data with _ | b | n | s | xs | fields
      · exact Except.noConfusion h
      · exact Except.noConfusion h
      · exact Except.noConfusion h
      · exact Except.noConfusion h
      · exact Except.noConfusion h
      · rcases hg : getField fields "action" with _ | v <;> simp only [hg] at h
        · exact Except.noConfusion h
        · exact ⟨fields, by rw [← Except.ok.inj h]⟩

theorem execute_action_error_runtime {now : String} {store : Store} {st : ServiceState}
    {fields : List (String × Json)} {e : PyErr}
    (hact : st.action = some (Json.obj fields))
    (h : execute_action now store st = .error e) : ∃ m, e = PyErr.runtime m := by
  unfold execute_action at h
  rw [hact] at h
  simp only at h
  rcases hd : dispatchAction now store st fields ((getField fields "action").getD Json.null)
      with ed | sr <;> simp only [hd] at h
  · have hed : ∃ m, ed = PyErr.runtime m := by
      unfold dispatchAction at hd
      by_cases h1 : (getField fields "action").getD Json.null = Json.str "get_order"
      · rw [if_pos h1] at hd
        rcases hv : (getField fields "order_id").getD (Json.str "") with _ | b | n | s | xs | fs <;>
          rw [hv] at hd
        · exact Except.noConfusion hd
        · exact Except.noConfusion hd
        · exact Except.noConfusion hd
        · exact Except.noConfusion hd
        · exact ⟨_, (Except.error.inj hd).symm⟩
        · exact ⟨_, (Except.error.inj hd).symm⟩
      · rw [if_neg h1] at hd
        by_cases h2 : (getField fields "action").getD Json.null = Json.str "get_all_orders"
        · rw [if_pos h2] at hd
          exact Except.noConfusion hd
        · rw [if_neg h2] at hd
          by_cases h3 : (getField fields "action").getD Json.null = Json.str "create_order"
          · rw [if_pos h3] at hd
            exact Except.noConfusion hd
          · rw [if_neg h3] at hd
            exact Except.noConfusion hd
    obtain ⟨m, hm⟩ := hed
    exact ⟨m, by rw [← Except.error.inj h, hm]⟩
  · rcases hm : mergeBundles st.bundles sr.2.2 with em | fb <;> simp only [hm] at h
    · exact ⟨_, (Except.error.inj h).symm⟩
    · exact Except.noConfusion h

theorem format_response_error_runtime {llm : String → Except String String}
    {dec : DecryptPayload → Except String String} {st : ServiceState} {e : PyErr}
    (h : format_response llm dec st = .error e) : ∃ m, e = PyErr.runtime m := by
  unfold format_response at h
  rcases he : llm (responsePrompt st.encrypted_input st.tool_result) with er | draft <;>
    simp only [he] at h
  · exact ⟨_, (Except.error.inj h).symm⟩
  · rcases hd : dec ⟨st.tenant_id, draft, st.bundles⟩ with ed | t <;> simp only [hd] at h
    · exact ⟨_, (Except.error.inj h).symm⟩
    · exact Except.noConfusion h


/-- Claim C2: a failure of the decrypt call on the drafted final reply is
fatal to the run: it fails with the recoverable pipeline error kind
(`RuntimeError`, modelled `PyErr.runtime` — the kind src/cli.py reports as
a processing error) and no final reply, partially decrypted or
placeholder-laden, is returned to the caller.  The first conjunct pins the
exact error of a run whose first three stages succeed; the second shows
that under a failing decrypt stub (the spec §8 test recipe) the pipeline
always fails with the recoverable kind. -/
theorem claim_C2_final_decrypt_failure_fatal
    (encrypt : String → Except String EncryptResponse)
    (llmAction : String → Except String String) (loads : String → Option Json)
    (llmReply : String → Except String String)
    (decrypt : DecryptPayload → Except String String)
    (now : String) (store : Store) (user_input : String) :
    (∀ (st1 st2 : ServiceState) (pair : Store × ServiceState) (draft e : String),
        process_input encrypt (initState user_input) = .ok st1 →
        determine_action llmAction loads st1 = .ok st2 →
        execute_action now store st2 = .ok pair →
        llmReply (responsePrompt pair.2.encrypted_input pair.2.tool_result) = .ok draft →
        decrypt ⟨pair.2.tenant_id, draft, pair.2.bundles⟩ = .error e →
        runPipeline encrypt llmAction loads llmReply decrypt now store user_input =
          .error (.runtime
            ("Response generation failed: Final response decrypt failed: " ++ e)))
    ∧ (∀ e, (∀ p, decrypt p = .error e) →
        ∃ m, runPipeline encrypt llmAction loads llmReply decrypt now store user_input =
          .error (PyErr.runtime m)) := by
  constructor
  · intro st1 st2 pair draft e h1 h2 h3 h4 h5
    unfold runPipeline
    simp only [h1, h2, h3]
    unfold format_response
    simp only [h4, h5]
  · intro e hdec
    rcases hp1 : process_input encrypt (initState user_input) with e1 | st1
    · obtain ⟨m, hm⟩ := process_input_error_runtime hp1
      exact ⟨m, by unfold runPipeline; simp only [hp1, hm]⟩
    · rcases hp2 : determine_action llmAction loads st1 with e2 | st2
      · obtain ⟨m, hm⟩ := determine_action_error_runtime hp2
        exact ⟨m, by unfold runPipeline; simp only [hp1, hp2, hm]⟩
      · obtain ⟨fields, hfields⟩ := determine_action_ok_action hp2
        rcases hp3 : execute_action now store st2 with e3 | pair
        · obtain ⟨m, hm⟩ := execute_action_error_runtime hfields hp3
          exact ⟨m, by unfold runPipeline; simp only [hp1, hp2, hp3, hm]⟩
        · rcases hp4 : llmReply (responsePrompt pair.2.encrypted_input pair.2.tool_result)
              with e4 | draft
          · refine ⟨"Response generation failed: " ++ e4, ?_⟩
            unfold runPipeline format_response
            simp only [hp1, hp2, hp3, hp4]
          · refine ⟨"Response generation failed: Final response decrypt failed: " ++ e, ?_⟩
            unfold runPipeline format_response
            simp only [hp1, hp2, hp3, hp4, hdec]

/-- Concrete stub oracles exercising the failing-final-decrypt run. -/
def c2Encrypt : String → Except String EncryptResponse :=
  fun _ => .ok (EncryptResponse.mk "Hello [PERSON_1]"
    [Json.obj [("placeholder", Json.str "[PERSON_1]")]] "tenant1")

def c2LlmAction : String → Except String String :=
  fun _ => .ok "\x7b\"action\": \"get_all_orders\"\x7d"

def c2Loads : String → Option Json :=
  fun s => if s = "\x7b\"action\": \"get_all_orders\"\x7d"
    then some (Json.obj [("action", Json.str "get_all_orders")]) else none

def c2LlmReply : String → Except String String :=
  fun _ => .ok "Here are the orders, [PERSON_1]."

def c2Decrypt : DecryptPayload → Except String String :=
  fun _ => .error "decrypt unavailable"

theorem claim_C2_witness :
    (process_input c2Encrypt (initState "show all orders") =
      .ok (ServiceState.mk "show all orders" (some "Hello [PERSON_1]")
        [Json.obj [("placeholder", Json.str "[PERSON_1]")]] "tenant1" none none none none))
    ∧ (determine_action c2LlmAction c2Loads
        (ServiceState.mk "show all orders" (some "Hello [PERSON_1]")
          [Json.obj [("placeholder", Json.str "[PERSON_1]")]] "tenant1" none none none none) =
      .ok (ServiceState.mk "show all orders" (some "Hello [PERSON_1]")
        [Json.obj [("placeholder", Json.str "[PERSON_1]")]] "tenant1"
        (some (Json.obj [("action", Json.str "get_all_orders")])) none none none))
    ∧ (execute_action "2026-10-12 10:00" (Store.mk [] [] 1)
        (ServiceState.mk "show all orders" (some "Hello [PERSON_1]")
          [Json.obj [("placeholder", Json.str "[PERSON_1]")]] "tenant1"
          (some (Json.obj [("action", Json.str "get_all_orders")])) none none none) =
      .ok (Store.mk [] [] 1,
        ServiceState.mk "show all orders" (some "Hello [PERSON_1]")
          [Json.obj [("placeholder", Json.str "[PERSON_1]")]] "tenant1"
          (some (Json.obj [("action", Json.str "get_all_orders")]))
          (some (Json.obj [("orders", Json.arr []), ("total", Json.num 0)])) none none))
    ∧ runPipeline c2Encrypt c2LlmAction c2Loads c2LlmReply c2Decrypt
        "2026-10-12 10:00" (Store.mk [] [] 1) "show all orders" =
      .error (.runtime
        ("Response generation failed: Final response decrypt failed: " ++
          "decrypt unavailable"))
    ∧ (∃ m, runPipeline c2Encrypt c2LlmAction c2Loads c2LlmReply c2Decrypt
        "2026-10-12 10:00" (Store.mk [] [] 1) "show all orders" =
      .error (PyErr.runtime m)) := by
  refine ⟨by decide, by decide, by decide, ?_, ?_⟩
  · exact (claim_C2_final_decrypt_failure_fatal c2Encrypt c2LlmAction c2Loads c2LlmReply
      c2Decrypt "2026-10-12 10:00" (Store.mk [] [] 1) "show all orders").1
      (ServiceState.mk "show all orders" (some "Hello [PERSON_1]")
        [Json.obj [("placeholder", Json.str "[PERSON_1]")]] "tenant1" none none none none)
      (ServiceState.mk "show all orders" (some "Hello [PERSON_1]")
        [Json.obj [("placeholder", Json.str "[PERSON_1]")]] "tenant1"
        (some (Json.obj [("action", Json.str "get_all_orders")])) none none none)
      (Store.mk [] [] 1,
        ServiceState.mk "show all orders" (some "Hello [PERSON_1]")
          [Json.obj [("placeholder", Json.str "[PERSON_1]")]] "tenant1"
          (some (Json.obj [("action", Json.str "get_all_orders")]))
          (some (Json.obj [("orders", Json.arr []), ("total", Json.num 0)])) none none)
      "Here are the orders, [PERSON_1]." "decrypt unavailable"
      (by decide) (by decide) (by decide) rfl rfl
  · exact (claim_C2_final_decrypt_failure_fatal c2Encrypt c2LlmAction c2Loads c2LlmReply
      c2Decrypt "2026-10-12 10:00" (Store.mk [] [] 1) "show all orders").2
      "decrypt unavailable" (fun p => rfl)


/-- Claim C3 (amended): a model output whose brace-delimited span fails to
parse as JSON makes the classification stage itself fail hard with the
pipeline error kind; an action value outside the three recognized kinds,
however, passes classification — the executor then answers with an
`Unknown action` error result, without raising and without touching the
store — so no silent default action is ever taken. -/
theorem claim_C3_parse_fails_hard_unknown_action_passes :
    (∀ (llm : String → Except String String) (loads : String → Option Json)
        (st : ServiceState) (raw : String),
        llm (actionPrompt st.encrypted_input) = .ok raw →
        loads (pySlice (pyStrip raw) (pyFind (pyStrip raw) (Char.ofNat 123))
          (pyRFind (pyStrip raw) (Char.ofNat 125) + 1)) = none →
        determine_action llm loads st =
          .error (.runtime "Language model action failure: invalid JSON"))
    ∧ (∀ (now : String) (store : Store) (st : ServiceState)
        (fields : List (String × Json)) (fb : List Json),
        st.action = some (Json.obj fields) →
        (getField fields "action").getD Json.null ≠ Json.str "get_order" →
        (getField fields "action").getD Json.null ≠ Json.str "get_all_orders" →
        (getField fields "action").getD Json.null ≠ Json.str "create_order" →
        mergeBundles st.bundles [] = .ok fb →
        execute_action now store st = .ok (store,
          { st with
              tool_result := some (Json.obj [("error", Json.str ("Unknown action: " ++
                pyStr ((getField fields "action").getD Json.null)))]),
              bundles := fb })) := by
  constructor
  · intro llm loads st raw hllm hload
    unfold determine_action
    simp only [hllm, hload]
  · intro now store st fields fb hact h1 h2 h3 hmerge
    unfold execute_action
    rw [hact]
    simp only
    unfold dispatchAction
    rw [if_neg h1, if_neg h2, if_neg h3]
    simp only [hmerge]

def c3LlmAction : String → Except String String :=
  fun _ => .ok "\x7b\"action\": \"delete_order\"\x7d"

def c3Loads : String → Option Json :=
  fun s => if s = "\x7b\"action\": \"delete_order\"\x7d"
    then some (Json.obj [("action", Json.str "delete_order")]) else none

/-- Claim C3 counterexample: on model output selecting the unrecognized
action kind `delete_order`, the classification stage does not fail hard —
it returns successfully with the parsed action stored — and the executor
does not raise either: it returns an `Unknown action` error result and the
pipeline proceeds.  This refutes the part of the claim saying that an
action value outside the three recognized kinds makes the classification
stage raise the pipeline error. -/
theorem claim_C3_counterexample :
    determine_action c3LlmAction c3Loads
      (ServiceState.mk "q" (some "enc") [] "t" none none none none) =
      .ok (ServiceState.mk "q" (some "enc") [] "t"
        (some (Json.obj [("action", Json.str "delete_order")])) none none none)
    ∧ execute_action "2026-10-12 10:00" (Store.mk [] [] 1)
        (ServiceState.mk "q" (some "enc") [] "t"
          (some (Json.obj [("action", Json.str "delete_order")])) none none none) =
      .ok (Store.mk [] [] 1,
        ServiceState.mk "q" (some "enc") [] "t"
          (some (Json.obj [("action", Json.str "delete_order")]))
          (some (Json.obj [("error", Json.str "Unknown action: delete_order")]))
          none none) :=
  ⟨by decide, by decide⟩

def c3BadLlm : String → Except String String := fun _ => .ok "no braces at all"

def c3NoParse : String → Option Json := fun _ => none

theorem claim_C3_witness :
    (c3BadLlm (actionPrompt (some "enc")) = .ok "no braces at all")
    ∧ determine_action c3BadLlm c3NoParse
        (ServiceState.mk "q" (some "enc") [] "t" none none none none) =
      .error (.runtime "Language model action failure: invalid JSON")
    ∧ mergeBundles ([] : List Json) [] = .ok []
    ∧ execute_action "2026-10-12 10:00" (Store.mk [] [] 1)
        (ServiceState.mk "q" (some "enc") [] "t"
          (some (Json.obj [("action", Json.str "delete_order")])) none none none) =
      .ok (Store.mk [] [] 1,
        ServiceState.mk "q" (some "enc") [] "t"
          (some (Json.obj [("action", Json.str "delete_order")]))
          (some (Json.obj [("error", Json.str "Unknown action: delete_order")]))
          none none) := by
  refine ⟨rfl, ?_, rfl, ?_⟩
  · exact claim_C3_parse_fails_hard_unknown_action_passes.1 c3BadLlm c3NoParse
      (ServiceState.mk "q" (some "enc") [] "t" none none none none)
      "no braces at all" rfl rfl
  · exact claim_C3_parse_fails_hard_unknown_action_passes.2 "2026-10-12 10:00"
      (Store.mk [] [] 1)
      (ServiceState.mk "q" (some "enc") [] "t"
        (some (Json.obj [("action", Json.str "delete_order")])) none none none)
      [("action", Json.str "delete_order")] [] rfl
      (by decide) (by decide) (by decide) rfl

